import Mathlib

/-!
Verification development for the clustering-based outing recommendation
pipeline (Python sources `prep_preferences.py`, `prep_sorties.py`,
`recommendation_runner.py`).

The embedding models a pandas DataFrame as an ordered list of named
columns over a scalar cell type.  Machine floats are modelled as exact
rationals with an explicit NaN constructor (`Cell.na`); all arithmetic
the pipeline performs on them (hour + minute/60, 0/1 indicators) is
exact, so no rounding is lost.  The pre-trained scaler / KMeans model
artifacts are opaque black boxes per the specification; they appear as
function parameters.  The external `dateutil` parser is likewise a
function parameter.  Python in-place mutation is modelled by functions
that return the post-call state of their argument explicitly.
-/

/-- A scalar cell of a table: NaN/None, a string, an exact numeric value,
or a boolean.  JSON null and float NaN are identified (`na`), which is how
pandas receives them from `json.loads` via `pd.DataFrame`. -/
inductive Cell where
  | na : Cell
  | str : String → Cell
  | num : ℚ → Cell
  | bool : Bool → Cell
deriving DecidableEq

/-- Python `str(x)` on a scalar, as used by `.astype(str)`.  NaN prints as
"nan"; booleans as "True"/"False"; integral rationals print without a
fractional part (the claims never depend on the printed form of
non-integral numbers). -/
def cellToStr : Cell → String
  | .na => "nan"
  | .str s => s
  | .num q => if q.den = 1 then toString q.num else toString q
  | .bool b => if b then "True" else "False"

/-- Splitting a character list on a separator character, matching Python
`str.split(sep)` for a one-character separator (an empty input yields
one empty field). -/
def splitOnChar (sep : Char) (l : List Char) : List (List Char) :=
  l.foldr
    (fun c acc =>
      match acc with
      | [] => [[c]]
      | cur :: rest => if c = sep then [] :: cur :: rest else (c :: cur) :: rest)
    [[]]

/-- Python `str.split(sep)` for a one-character separator. -/
def splitStr (sep : Char) (s : String) : List String :=
  (splitOnChar sep s.data).map String.mk

/-- Python `str.lower()`. -/
def lowerStr (s : String) : String :=
  String.mk (s.data.map Char.toLower)

/-- Decimal digit run to a natural number (none when empty or a
non-digit appears), the core of Python `int(...)` parsing. -/
def digitsToNat? (cs : List Char) : Option Nat :=
  if cs.isEmpty then none
  else
    cs.foldl
      (fun acc c =>
        match acc with
        | none => none
        | some n => if c.isDigit then some (10 * n + (c.toNat - 48)) else none)
      (some 0)

/-- Strip leading and trailing spaces, as Python `int(...)` tolerates. -/
def trimSpaces (cs : List Char) : List Char :=
  ((cs.dropWhile (fun c => c = ' ')).reverse.dropWhile (fun c => c = ' ')).reverse

/-- Python `int(s)` on a decimal string: optional sign, digit run; any
other shape raises, modelled as `none`. -/
def parseIntStr? (s : String) : Option Int :=
  match trimSpaces s.data with
  | '-' :: rest => (digitsToNat? rest).map (fun n => -(n : Int))
  | '+' :: rest => (digitsToNat? rest).map (fun n => (n : Int))
  | cs => (digitsToNat? cs).map (fun n => (n : Int))

/-- Python truthy-token test used throughout the sources:
`str(x).lower() in ["true", "1", "yes"]`. -/
def truthyCell (c : Cell) : Bool :=
  let s := lowerStr (cellToStr c)
  (s == "true") || (s == "1") || (s == "yes")

/-- A pandas DataFrame: a row count and an ordered list of named columns.
Well-formed frames have every column of length `nrows`; the operations
below preserve this.  Column names are looked up first-match, matching
frames whose names are distinct (the only frames this pipeline builds). -/
structure DF where
  nrows : Nat
  cols : List (String × List Cell)
deriving DecidableEq

namespace DF

/-- `df.columns`. -/
def columns (df : DF) : List String := df.cols.map Prod.fst

/-- `name in df.columns`. -/
def hasCol (df : DF) (n : String) : Bool := df.columns.contains n

/-- `df[name]` as a list of cells (empty when the column is absent; the
callers below always guard on `hasCol`). -/
def colD (df : DF) (n : String) : List Cell := (df.cols.lookup n).getD []

/-- `df[name] = values`: replace the column in place when present,
append it at the end otherwise. -/
def setCol (df : DF) (n : String) (v : List Cell) : DF :=
  if df.hasCol n then
    ⟨df.nrows, df.cols.map (fun p => if p.1 = n then (n, v) else p)⟩
  else ⟨df.nrows, df.cols ++ [(n, v)]⟩

/-- `df.drop(columns=[name])` (identity when absent, as the sources only
call it guarded or tolerate absence). -/
def dropCol (df : DF) (n : String) : DF :=
  ⟨df.nrows, df.cols.filter (fun p => p.1 != n)⟩

/-- `pd.concat([df, more], axis=1)`: append new columns on the right. -/
def appendCols (df : DF) (new : List (String × List Cell)) : DF :=
  ⟨df.nrows, df.cols ++ new⟩

/-- Keep the entries of `v` whose mask bit is true. -/
def applyMask (mask : List Bool) (v : List Cell) : List Cell :=
  ((v.zip mask).filter (fun p => p.2)).map Prod.fst

/-- `df[mask].reset_index(drop=True)`: boolean row filtering. -/
def filterRows (df : DF) (mask : List Bool) : DF :=
  ⟨mask.count true, df.cols.map (fun p => (p.1, applyMask mask p.2))⟩

/-- `df[names]`: column selection in the given order; pandas raises
`KeyError` when a requested name is absent, modelled as `none`. -/
def select? (df : DF) (names : List String) : Option DF :=
  if names.all (fun n => df.hasCol n) then
    some ⟨df.nrows, names.map (fun n => (n, df.colD n))⟩
  else none

end DF

/-- One raw JSON record: an association list from field name to scalar
(Python dict keys are unique; lookup is first-match). -/
abbrev RawRecord := List (String × Cell)

/-- The ordered union of the keys of all records, first appearance
first: the column order `pd.DataFrame(list_of_dicts)` produces. -/
def collectKeys (rs : List RawRecord) : List String :=
  rs.foldl
    (fun acc r =>
      r.foldl (fun acc2 kv => if acc2.contains kv.1 then acc2 else acc2 ++ [kv.1]) acc)
    []

/-- `pd.DataFrame(records)`: one row per record, one column per key seen,
missing keys filled with NaN. -/
def pdDataFrame (rs : List RawRecord) : DF :=
  ⟨rs.length, (collectKeys rs).map (fun k => (k, rs.map (fun r => (r.lookup k).getD Cell.na)))⟩

/-!  ## Feature aligner (`ensure_features` in `recommendation_runner.py`)

The Python function mutates its argument in place (`df[feature] = 0` for
each missing feature) and returns the selection `df[required_features]`.
`add_missing_features` is the loop; `ensure_features_full` returns both
the post-call state of the caller frame and the returned selection. -/

/-- The `for feature in required_features` loop of `ensure_features`:
append a zero-filled column for every required name not present. -/
def add_missing_features (df : DF) (required : List String) : DF :=
  required.foldl
    (fun d f =>
      if d.hasCol f then d else d.appendCols [(f, List.replicate d.nrows (Cell.num 0))])
    df

/-- `ensure_features`, with the in-place mutation made explicit: first
component is the state of the caller frame after the call, second is the
returned `df[required_features]` selection. -/
def ensure_features_full (df : DF) (required : List String) : DF × Option DF :=
  let d := add_missing_features df required
  (d, d.select? required)

/-- `ensure_features(df, required_features)`: the value the call returns. -/
def ensure_features (df : DF) (required : List String) : Option DF :=
  (ensure_features_full df required).2

/-!  ## Preferences encoder (`prep_preferences.py`) -/

/-- `PREF_ONE_HOT_COLS`. -/
def PREF_ONE_HOT_COLS : List String :=
  ["level", "cyclingType", "cyclingFrequency", "cyclingDistance", "hikeType",
   "hikeDuration", "hikePreference", "campingType", "campingDuration"]

/-- `PREF_BOOL_COLS`. -/
def PREF_BOOL_COLS : List String := ["cyclingGroupInterest", "campingPractice"]

/-- `PREF_DAYS`. -/
def PREF_DAYS : List String :=
  ["MONDAY", "TUESDAY", "WEDNESDAY", "THURSDAY", "FRIDAY", "SATURDAY", "SUNDAY"]

/-- `_parse_hour_to_float` on the string already produced by `str(h)`:
split on ":", require exactly two parts, convert both with `int`,
return `hh + mm / 60.0`; any failure yields NaN (`none`). -/
def parseHour (s : String) : Option ℚ :=
  match splitStr ':' s with
  | [a, b] =>
    match parseIntStr? a, parseIntStr? b with
    | some hh, some mm => some ((hh : ℚ) + (mm : ℚ) / 60)
    | _, _ => none
  | _ => none

/-- `_parse_hour_to_float` on a cell: NaN stays NaN (the `pd.isna`
guard); otherwise parse `str(h)`, with parse failure yielding NaN. -/
def parseHourCell (c : Cell) : Cell :=
  match c with
  | .na => .na
  | c =>
    match parseHour (cellToStr c) with
    | some q => .num q
    | none => .na

/-- `fillna(fb).astype(str)` on one cell. -/
def fillCellStr (fb : String) (c : Cell) : String :=
  match c with
  | .na => fb
  | c => cellToStr c

/-- The sorted distinct values of a string list: the category order
`pd.get_dummies` uses for its output columns. -/
def sortedDedup (l : List String) : List String :=
  (l.insertionSort (· ≤ ·)).dedup

/-- `pd.get_dummies(series, prefix=pfx)`: one 0/1 column per distinct
value, named `pfx_value`, in sorted value order (pandas emits boolean
dummies; 0/1 is their numeric reading). -/
def getDummies (pfx : String) (vals : List String) : List (String × List Cell) :=
  (sortedDedup vals).map
    (fun c => (pfx ++ "_" ++ c, vals.map (fun v => Cell.num (if v = c then 1 else 0))))

/-- One one-hot block of either encoder:
`df[col] = df[col].fillna(fb).astype(str);
 dummies = pd.get_dummies(df[col], prefix=col);
 df = pd.concat([df.drop(columns=[col]), dummies], axis=1)`
guarded by `if col in df.columns`. -/
def oneHotStage (fb : String) (col : String) (df : DF) : DF :=
  if df.hasCol col then
    let vals := (df.colD col).map (fillCellStr fb)
    (df.dropCol col).appendCols (getDummies col vals)
  else df

/-- The `onboardingComplete` filter: keep rows whose value is a truthy
token, then reset the index.  Identity when the column is absent. -/
def prefFilterStage (df : DF) : DF :=
  if df.hasCol "onboardingComplete" then
    df.filterRows ((df.colD "onboardingComplete").map truthyCell)
  else df

/-- One boolean column: `df[col].astype(str).str.lower().isin([...]).astype(int)`,
guarded by presence. -/
def boolStage (col : String) (df : DF) : DF :=
  if df.hasCol col then
    df.setCol col ((df.colD col).map (fun c => Cell.num (if truthyCell c then 1 else 0)))
  else df

/-- `_encode_days`: NaN becomes the empty set, otherwise
`set(str(val).split("|"))` (membership in a Python set of split tokens
equals membership in the token list). -/
def encodeDays (c : Cell) : List String :=
  match c with
  | .na => []
  | c => splitStr '|' (cellToStr c)

/-- The `availableDays` block: initialise one `day_<j>` column per fixed
day to 0, set cell (i, day_j) to 1 whenever day j is in row i's token
set, then drop `availableDays`.  The per-cell `df.at` loop of the source
and this per-column rendering produce the same frame, since every cell
of `day_<j>` is written exactly once. -/
def daysStage (df : DF) : DF :=
  if df.hasCol "availableDays" then
    let sets := (df.colD "availableDays").map encodeDays
    let df :=
      PREF_DAYS.foldl
        (fun d j =>
          d.setCol ("day_" ++ j)
            (sets.map (fun ds => Cell.num (if ds.contains j then 1 else 0))))
        df
    df.dropCol "availableDays"
  else df

/-- One time-of-day block: `df[dst] = df[src].apply(_parse_hour_to_float)`
then drop `src`, guarded by presence of `src`. -/
def hourStage (src dst : String) (df : DF) : DF :=
  if df.hasCol src then
    (df.setCol dst ((df.colD src).map parseHourCell)).dropCol src
  else df

/-- Python `float(s)` as `pd.to_numeric(errors="coerce")` applies it to a
decimal string: optional sign, digit run, optional fractional digit run.
Exotic float syntax (exponents, leading dot) coerces to NaN here; the
claims do not exercise it. -/
def parseNumLit? (s : String) : Option ℚ :=
  let core (t : List Char) : Option ℚ :=
    match splitOnChar '.' t with
    | [a] => (digitsToNat? a).map (fun n => (n : ℚ))
    | [a, b] =>
      match digitsToNat? a, digitsToNat? b with
      | some n, some f => some ((n : ℚ) + (f : ℚ) / ((10 : ℚ) ^ b.length))
      | _, _ => none
    | _ => none
  match trimSpaces s.data with
  | '-' :: rest => (core rest).map (fun q => -q)
  | '+' :: rest => core rest
  | cs => core cs

/-- `pd.to_numeric(x, errors="coerce")` on one cell: numbers stay,
booleans become 0/1, NaN stays NaN, strings parse or coerce to NaN. -/
def toNumericCell (c : Cell) : Cell :=
  match c with
  | .na => .na
  | .num q => .num q
  | .bool b => .num (if b then 1 else 0)
  | .str s =>
    match parseNumLit? s with
    | some q => .num q
    | none => .na

/-- One numeric coercion column (`pd.to_numeric(errors="coerce")`),
guarded by presence. -/
def toNumericStage (col : String) (df : DF) : DF :=
  if df.hasCol col then df.setCol col ((df.colD col).map toNumericCell) else df

/-- `fillna(0)` on one cell. -/
def fillZero (c : Cell) : Cell :=
  if c = Cell.na then Cell.num 0 else c

/-- A column pandas reports as numeric dtype for the purposes of the
final sweep: every cell is a number or NaN.  (A column holding any
string is object dtype and is left alone; pure boolean columns contain
no NaN, so excluding them does not change the sweep.) -/
def isNumericCol (v : List Cell) : Bool :=
  v.all (fun c => match c with | .na => true | .num _ => true | _ => false)

/-- The final sweep of both encoders:
`for col in df.columns: if is_numeric_dtype(df[col]): df[col] = df[col].fillna(0)`. -/
def finalNaSweep (df : DF) : DF :=
  ⟨df.nrows, df.cols.map (fun p => (p.1, if isNumericCol p.2 then p.2.map fillZero else p.2))⟩

/-- The one-hot loop of the preferences encoder. -/
def ohFold (fb : String) (L : List String) (df : DF) : DF :=
  L.foldl (fun d c => oneHotStage fb c d) df

/-- The boolean-column loop of the preferences encoder. -/
def prefBoolFold (df : DF) : DF :=
  PREF_BOOL_COLS.foldl (fun d c => boolStage c d) df

/-- The designated numeric coercions of the preferences encoder. -/
def prefNumFold (df : DF) : DF :=
  ["latitude", "longitude", "averageSpeed"].foldl (fun d c => toNumericStage c d) df

/-- `prepare_preferences_dataframe`: copy, completion filter, one-hot
expansion, boolean mapping, day-set expansion, time parsing, numeric
coercion, final NaN sweep. -/
def prepare_preferences_dataframe (df : DF) : DF :=
  finalNaSweep
    (prefNumFold
      (hourStage "end" "end_hour"
        (hourStage "start" "start_hour"
          (daysStage (prefBoolFold (ohFold "UNKNOWN" PREF_ONE_HOT_COLS (prefFilterStage df)))))))

/-- `prepare_preferences_dataframe` with the caller frame made explicit:
the source begins with `df = df.copy()`, so the caller frame is returned
unchanged alongside the result. -/
def prepare_preferences_dataframe_full (df : DF) : DF × DF :=
  (df, prepare_preferences_dataframe df)

/-!  ## Outings encoder (`prep_sorties.py`)

The external `dateutil.parser.parse` is outside this repository; it is
modelled as a parameter `dtp : String → Option (Nat × Nat)` returning
the month and weekday of the parsed datetime (the only two projections
the source reads), or `none` on parse failure. -/

/-- `SORTIES_REMOVE_TEXT_COLS`. -/
def SORTIES_REMOVE_TEXT_COLS : List String :=
  ["titre", "description", "photo", "createurId", "itineraire_description"]

/-- `SORTIES_BOOL_COLS`. -/
def SORTIES_BOOL_COLS : List String := ["option_camping", "camping"]

/-- The designated numeric fields of the outings encoder. -/
def SORTIES_NUM_COLS : List String :=
  ["capacite", "distance", "duree_estimee", "depart_lat", "depart_lon",
   "arrivee_lat", "arrivee_lon"]

/-- `_parse_datetime_safe` on a cell: the `pd.isna` guard, then the
external permissive parser on `str(dt)`. -/
def parseDatetimeSafe (dtp : String → Option (Nat × Nat)) (c : Cell) : Option (Nat × Nat) :=
  match c with
  | .na => none
  | c => dtp (cellToStr c)

/-- One numeric column of the outings encoder:
`pd.to_numeric(df[col], errors="coerce").fillna(0)` (the fill is
immediate here, unlike the deferred sweep of the preferences encoder). -/
def toNumericFillStage (col : String) (df : DF) : DF :=
  if df.hasCol col then
    df.setCol col ((df.colD col).map (fun c => fillZero (toNumericCell c)))
  else df

/-- The `date` block: parse each cell once, emit integer columns `mois`
(month, 0 on failure) and `jour_semaine` (weekday, 0 on failure), then
drop `date`. -/
def dateStage (dtp : String → Option (Nat × Nat)) (df : DF) : DF :=
  if df.hasCol "date" then
    let parsed := (df.colD "date").map (parseDatetimeSafe dtp)
    let df :=
      df.setCol "mois"
        (parsed.map (fun o => Cell.num (match o with | some (m, _) => (m : ℚ) | none => 0)))
    let df :=
      df.setCol "jour_semaine"
        (parsed.map (fun o => Cell.num (match o with | some (_, w) => (w : ℚ) | none => 0)))
    df.dropCol "date"
  else df

/-- The unconditional text-column drops of the outings encoder. -/
def sortiesTextDrop (df : DF) : DF :=
  SORTIES_REMOVE_TEXT_COLS.foldl (fun d c => d.dropCol c) df

/-- The boolean-column loop of the outings encoder. -/
def sortiesBoolFold (df : DF) : DF :=
  SORTIES_BOOL_COLS.foldl (fun d c => boolStage c d) df

/-- The designated numeric coercions of the outings encoder. -/
def sortiesNumFold (df : DF) : DF :=
  SORTIES_NUM_COLS.foldl (fun d c => toNumericFillStage c d) df

/-- `prepare_sorties_dataframe`: copy, text drops, one-hot `difficulte`
(INCONNUE fallback) and `type` (UNKNOWN fallback), boolean mapping,
numeric coercion with immediate zero fill, date expansion, final sweep. -/
def prepare_sorties_dataframe (dtp : String → Option (Nat × Nat)) (df : DF) : DF :=
  finalNaSweep
    (dateStage dtp
      (sortiesNumFold
        (sortiesBoolFold
          (oneHotStage "UNKNOWN" "type"
            (oneHotStage "INCONNUE" "difficulte" (sortiesTextDrop df))))))

/-- `prepare_sorties_dataframe` with the caller frame made explicit (the
source begins with `df = df.copy()`). -/
def prepare_sorties_dataframe_full (dtp : String → Option (Nat × Nat)) (df : DF) :
    DF × DF :=
  (df, prepare_sorties_dataframe dtp df)

/-!  ## Runner (`recommendation_runner.py`)

The six artifacts are opaque: each domain carries its required feature
list plus one opaque function standing for
`scaler.transform` followed by `kmeans.predict` (one integer per row). -/

/-- The preference-domain artifacts. -/
structure PrefModels where
  features : List String
  predict : DF → List Int

/-- The outing-domain artifacts. -/
structure SortiesModels where
  features : List String
  predict : DF → List Int

/-- `predict_user_cluster`: one-row frame, preprocessing, alignment,
scale + predict, first entry of the prediction vector.  `none` models a
raised exception (alignment `KeyError` or empty prediction indexing). -/
def predict_user_cluster (user_prefs : RawRecord) (MP : PrefModels) : Option Int :=
  let df := pdDataFrame [user_prefs]
  let df_processed := prepare_preferences_dataframe df
  match ensure_features df_processed MP.features with
  | none => none
  | some df_features => (MP.predict df_features)[0]?

/-- The result-building loop
`for i, sortie_id in enumerate(sortie_ids): result.append({id, int(clusters[i])})`:
`i` walks 0,1,2,... so the loop pairs the two lists positionally and
raises `IndexError` (`none`) when the cluster vector is shorter. -/
def buildResult (ids : List Cell) (clusters : List Int) : Option (List (Cell × Int)) :=
  match ids, clusters with
  | [], _ => some []
  | i :: is2, c :: cs => (buildResult is2 cs).map (fun r => (i, c) :: r)
  | _ :: _, [] => none

/-- `predict_sorties_clusters`: empty input short-circuits to `[]`;
otherwise build the frame, capture ids (the `id` column when present,
positional indices otherwise), preprocess, align, scale + predict, and
pair ids with clusters. -/
def predict_sorties_clusters (sorties : List RawRecord) (MS : SortiesModels)
    (dtp : String → Option (Nat × Nat)) : Option (List (Cell × Int)) :=
  if sorties.isEmpty then some []
  else
    let df := pdDataFrame sorties
    let sortie_ids :=
      if df.hasCol "id" then df.colD "id"
      else (List.range df.nrows).map (fun (i : Nat) => Cell.num (i : ℚ))
    let df_processed := prepare_sorties_dataframe dtp df
    match ensure_features df_processed MS.features with
    | none => none
    | some df_features => buildResult sortie_ids (MS.predict df_features)

/-- The success-path result document of `main`. -/
structure MatchResult where
  userCluster : Int
  sortiesWithClusters : List (Cell × Int)
  matchedSortieIds : List Cell
deriving DecidableEq

/-- The prediction-and-match core of `main` (after input validation):
user cluster, outing clusters, then
`matched_sortie_ids = [item["id"] for item in sorties_with_clusters
                       if item["cluster"] == user_cluster]`.
`none` models an exception escaping either prediction. -/
def runMatch (prefs : RawRecord) (sorties : List RawRecord) (MP : PrefModels)
    (MS : SortiesModels) (dtp : String → Option (Nat × Nat)) : Option MatchResult :=
  match predict_user_cluster prefs MP with
  | none => none
  | some user_cluster =>
    match predict_sorties_clusters sorties MS dtp with
    | none => none
    | some swc =>
      some ⟨user_cluster, swc, (swc.filter (fun it => it.2 == user_cluster)).map Prod.fst⟩

/-!  ## Request/response gateway (`main` in `recommendation_runner.py`)

`json.loads` is standard-library code outside this repository; it is a
parameter `parseJson : String → Except String JValue` whose error value
is the `JSONDecodeError` text interpolated into the diagnostic.  The
process-level outcome records the exit status, the result document
written to standard output (if any), and the primary diagnostic written
to standard error (if any). -/

/-- A parsed JSON document. -/
inductive JValue where
  | null : JValue
  | bool : Bool → JValue
  | num : ℚ → JValue
  | str : String → JValue
  | arr : List JValue → JValue
  | obj : List (String × JValue) → JValue

/-- Python `key in data` for a parsed JSON value: key membership for a
dict, `==`-membership for a list (a string only equals a string), and
substring search for a string; any other type raises `TypeError`,
modelled as `none`. -/
def keyCheck (data : JValue) (k : String) : Option Bool :=
  match data with
  | .obj fields => some (fields.any (fun kv => kv.1 == k))
  | .arr es =>
    some (es.any (fun e => match e with | .str s => s == k | _ => false))
  | .str s =>
    some ((List.range (s.length + 1)).any (fun i => ((s.drop i).take k.length) == k))
  | _ => none

/-- `data[key]` for a parsed JSON value: only a dict supports string
indexing; anything else raises, modelled as `none`. -/
def getKey (data : JValue) (k : String) : Option JValue :=
  match data with
  | .obj fields => fields.lookup k
  | _ => none

/-- A JSON scalar as the cell `pd.DataFrame` receives for it. -/
def jScalarToCell (v : JValue) : Option Cell :=
  match v with
  | .null => some Cell.na
  | .bool b => some (Cell.bool b)
  | .num q => some (Cell.num q)
  | .str s => some (Cell.str s)
  | _ => none

/-- A JSON object as a raw record.  Nested containers inside a record,
and non-object payloads, produce frames with non-string column labels in
pandas; they are outside the modelled scope (none of the claims reaches
them) and are mapped to the unhandled-error path. -/
def jToRecord (v : JValue) : Option RawRecord :=
  match v with
  | .obj fields =>
    fields.foldr
      (fun kv acc =>
        match acc, jScalarToCell kv.2 with
        | some r, some c => some ((kv.1, c) :: r)
        | _, _ => none)
      (some [])
  | _ => none

/-- A JSON array of objects as a list of raw records. -/
def jToRecords (v : JValue) : Option (List RawRecord) :=
  match v with
  | .arr es =>
    es.foldr
      (fun e acc =>
        match acc, jToRecord e with
        | some rs, some r => some (r :: rs)
        | _, _ => none)
      (some [])
  | _ => none

/-- The outcome of one process invocation: exit status, the result
document on standard output (if any), and the primary diagnostic on
standard error (if any). -/
structure Outcome where
  exitCode : Nat
  stdout : Option MatchResult
  stderr : Option String
deriving DecidableEq

/-- `print("Erreur: aucune donnée reçue sur stdin", file=sys.stderr)`. -/
def msgEmptyInput : String := "Erreur: aucune donnée reçue sur stdin"

/-- The fixed prefix of the invalid-JSON diagnostic. -/
def msgInvalidJsonPrefix : String := "Erreur: JSON invalide - "

/-- The missing-`userPreferences` diagnostic. -/
def msgMissingPrefs : String := "Erreur: \x27userPreferences\x27 manquant dans les données"

/-- The missing-`sorties` diagnostic. -/
def msgMissingSorties : String := "Erreur: \x27sorties\x27 manquant dans les données"

/-- The prefix of the catch-all diagnostic of the outer handler. -/
def msgUnhandledPrefix : String := "Erreur non gérée: "

/-- `main`, after the models loaded successfully: read stdin, reject
empty input, parse JSON, check `userPreferences` then `sorties`, run the
predictions, print exactly one result document on stdout on success;
every failure writes a diagnostic to stderr, writes nothing to stdout,
and exits 1. -/
def main_gateway (MP : PrefModels) (MS : SortiesModels)
    (dtp : String → Option (Nat × Nat))
    (parseJson : String → Except String JValue) (input : String) : Outcome :=
  if input = "" then ⟨1, none, some msgEmptyInput⟩
  else
    match parseJson input with
    | .error e => ⟨1, none, some (msgInvalidJsonPrefix ++ e)⟩
    | .ok data =>
      match keyCheck data "userPreferences" with
      | none => ⟨1, none, some (msgUnhandledPrefix ++ "TypeError")⟩
      | some false => ⟨1, none, some msgMissingPrefs⟩
      | some true =>
        match keyCheck data "sorties" with
        | none => ⟨1, none, some (msgUnhandledPrefix ++ "TypeError")⟩
        | some false => ⟨1, none, some msgMissingSorties⟩
        | some true =>
          match getKey data "userPreferences", getKey data "sorties" with
          | some jp, some js =>
            match jToRecord jp, jToRecords js with
            | some prefs, some sorties =>
              match runMatch prefs sorties MP MS dtp with
              | some res => ⟨0, some res, none⟩
              | none => ⟨1, none, some (msgUnhandledPrefix ++ "prediction")⟩
            | _, _ => ⟨1, none, some (msgUnhandledPrefix ++ "shape")⟩
          | _, _ => ⟨1, none, some (msgUnhandledPrefix ++ "TypeError")⟩

/-!  ## Specification-side definitions (for refinement statements) -/

/-- Modelled from the spec: the identifier each outing carries, read off
the request itself — the `id` field of each outing when the outings
table has an `id` field, the positional index 0..N-1 otherwise. -/
def spec_outing_ids (sorties : List RawRecord) : List Cell :=
  if sorties.any (fun r => (r.lookup "id").isSome) then
    sorties.map (fun r => (r.lookup "id").getD Cell.na)
  else
    (List.range sorties.length).map (fun (i : Nat) => Cell.num (i : ℚ))

/-!  ## Generic list and string lemmas -/

theorem lookup_map_value {β : Type} (F : β → β) :
    ∀ (l : List (String × β)) (n : String),
      (l.map (fun p => (p.1, F p.2))).lookup n = (l.lookup n).map F := by
  intro l
  induction l with
  | nil => intro n; rfl
  | cons hd tl ih =>
    intro n
    by_cases h : n == hd.1
    · simp [List.lookup, h]
    · simp [List.lookup, h, ih]

theorem lookup_append_left {β : Type} {l₁ : List (String × β)} {n : String} {v : β}
    (h : l₁.lookup n = some v) (l₂ : List (String × β)) :
    (l₁ ++ l₂).lookup n = some v := by
  induction l₁ with
  | nil => simp [List.lookup] at h
  | cons hd tl ih =>
    by_cases hn : n == hd.1
    · simpa [List.lookup, hn] using h
    · simp only [List.lookup, hn, List.cons_append] at h ⊢
      exact ih h

theorem lookup_append_right {β : Type} {l₁ : List (String × β)} {n : String}
    (h : l₁.lookup n = none) (l₂ : List (String × β)) :
    (l₁ ++ l₂).lookup n = l₂.lookup n := by
  induction l₁ with
  | nil => rfl
  | cons hd tl ih =>
    by_cases hn : n == hd.1
    · simp [List.lookup, hn] at h
    · simp only [List.lookup, hn, List.cons_append] at h ⊢
      exact ih h

theorem lookup_filter_ne {β : Type} {n m : String} (hne : n ≠ m) :
    ∀ (l : List (String × β)),
      (l.filter (fun p => p.1 != m)).lookup n = l.lookup n := by
  intro l
  induction l with
  | nil => rfl
  | cons hd tl ih =>
    by_cases hm : hd.1 = m
    · have hn : (n == hd.1) = false := by
        simp [hm]
        exact hne
      have hnm : (n == m) = false := by simpa using hne
      simp [List.filter, List.lookup, hm, hn, hnm, ih]
    · have : (hd.1 != m) = true := by simpa using hm
      by_cases hn : n == hd.1
      · simp [List.filter, this, List.lookup, hn]
      · simp [List.filter, this, List.lookup, hn, ih]

theorem lookup_map_self {β : Type} (vf : String → β) :
    ∀ (F : List String) (f : String), f ∈ F →
      (F.map (fun g => (g, vf g))).lookup f = some (vf f) := by
  intro F
  induction F with
  | nil => intro f hf; cases hf
  | cons g₀ F' ih =>
    intro f hf
    by_cases h : f = g₀
    · subst h; simp [List.lookup]
    · have : (f == g₀) = false := by simpa using h
      have hf' : f ∈ F' := by
        cases hf with
        | head => exact absurd rfl h
        | tail _ hmem => exact hmem
      simp [List.lookup, this, ih f hf']

theorem lookup_isSome_of_mem_keys {β : Type} :
    ∀ {l : List (String × β)} {n : String}, n ∈ l.map Prod.fst →
      ∃ v, l.lookup n = some v := by
  intro l
  induction l with
  | nil => intro n h; simp at h
  | cons hd tl ih =>
    intro n h
    by_cases hn : n == hd.1
    · exact ⟨hd.2, by simp [List.lookup, hn]⟩
    · have : n ∈ tl.map Prod.fst := by
        simp only [List.map_cons, List.mem_cons] at h
        cases h with
        | inl he =>
          exfalso
          exact (by simpa using hn : ¬n = hd.1) he
        | inr hm => exact hm
      obtain ⟨v, hv⟩ := ih this
      exact ⟨v, by simp [List.lookup, hn, hv]⟩

theorem lookup_none_of_not_mem_keys {β : Type} :
    ∀ {l : List (String × β)} {n : String}, n ∉ l.map Prod.fst →
      l.lookup n = none := by
  intro l
  induction l with
  | nil => intro n _; rfl
  | cons hd tl ih =>
    intro n h
    simp only [List.map_cons, List.mem_cons, not_or] at h
    have hn : (n == hd.1) = false := by simpa using h.1
    simp [List.lookup, hn, ih h.2]

theorem data_underscore : ("_" : String).data = ['_'] := rfl

theorem data_append3 (f v : String) :
    (f ++ "_" ++ v).data = f.data ++ '_' :: v.data := by
  simp [String.data_append, data_underscore]

theorem underscore_mem (f v : String) : '_' ∈ (f ++ "_" ++ v).data := by
  rw [data_append3]
  simp

theorem ne_of_no_underscore {b : String} (hb : '_' ∉ b.data) (f v : String) :
    f ++ "_" ++ v ≠ b := by
  intro h
  exact hb (h ▸ underscore_mem f v)

theorem split_unique_aux :
    ∀ (a b x y : List Char), a ++ '_' :: x = b ++ '_' :: y →
      '_' ∉ a → '_' ∉ b → a = b ∧ x = y := by
  intro a
  induction a with
  | nil =>
    intro b x y h ha hb
    cases b with
    | nil =>
      simp at h
      exact ⟨rfl, h⟩
    | cons d ds =>
      simp only [List.nil_append, List.cons_append, List.cons.injEq] at h
      exfalso
      exact hb (h.1 ▸ List.mem_cons_self d ds)
  | cons c cs ih =>
    intro b x y h ha hb
    cases b with
    | nil =>
      simp only [List.cons_append, List.nil_append, List.cons.injEq] at h
      exfalso
      exact ha (h.1 ▸ List.mem_cons_self c cs)
    | cons d ds =>
      simp only [List.cons_append, List.cons.injEq] at h
      have ha' : '_' ∉ cs := fun hm => ha (List.mem_cons_of_mem c hm)
      have hb' : '_' ∉ ds := fun hm => hb (List.mem_cons_of_mem d hm)
      obtain ⟨h1, h2⟩ := ih ds x y h.2 ha' hb'
      exact ⟨by rw [h.1, h1], h2⟩

theorem split_unique {f g v w : String} (h : f ++ "_" ++ v = g ++ "_" ++ w)
    (hf : '_' ∉ f.data) (hg : '_' ∉ g.data) : f = g ∧ v = w := by
  have hd : f.data ++ '_' :: v.data = g.data ++ '_' :: w.data := by
    have := congrArg String.data h
    rwa [data_append3, data_append3] at this
  obtain ⟨h1, h2⟩ := split_unique_aux f.data g.data v.data w.data hd hf hg
  exact ⟨String.ext h1, String.ext h2⟩

theorem append_ne_of_zip_any :
    ∀ (a b x y : List Char), (a.zip b).any (fun p => p.1 != p.2) = true →
      a ++ x ≠ b ++ y := by
  intro a
  induction a with
  | nil => intro b x y h; simp at h
  | cons c cs ih =>
    intro b x y h
    cases b with
    | nil => simp at h
    | cons d ds =>
      simp only [List.zip_cons_cons, List.any_cons, Bool.or_eq_true] at h
      intro he
      simp only [List.cons_append, List.cons.injEq] at he
      cases h with
      | inl hcd => simp [he.1] at hcd
      | inr hrest => exact ih ds x y hrest he.2

theorem str_append_ne {a b : String}
    (h : (a.data.zip b.data).any (fun p => p.1 != p.2) = true) (x y : String) :
    a ++ x ≠ b ++ y := by
  intro he
  have := congrArg String.data he
  rw [String.data_append, String.data_append] at this
  exact append_ne_of_zip_any a.data b.data x.data y.data h this

theorem str_append_ne_right {a b : String}
    (h : (a.data.zip b.data).any (fun p => p.1 != p.2) = true) (x : String) :
    a ++ x ≠ b := by
  intro he
  have hb : b ++ "" = b := by
    apply String.ext
    simp [String.data_append]
  exact str_append_ne h x "" (by rw [hb]; exact he)

/-- Fold preservation: a property stable under every step of a fold is
stable under the fold. -/
theorem foldl_preserve {α : Type} (P : DF → Prop) (step : DF → α → DF) :
    ∀ (L : List α) (df : DF), (∀ a ∈ L, ∀ d, P d → P (step d a)) → P df →
      P (L.foldl step df) := by
  intro L
  induction L with
  | nil => intro df _ h; exact h
  | cons a L' ih =>
    intro df hstep h
    exact ih (step df a) (fun b hb d hd => hstep b (List.mem_cons_of_mem a hb) d hd)
      (hstep a (List.mem_cons_self a L') df h)

/-!  ## DataFrame operation lemmas -/

theorem hasCol_iff_mem {df : DF} {n : String} :
    df.hasCol n = true ↔ n ∈ df.columns := by
  simp [DF.hasCol]

theorem hasCol_iff_lookup {df : DF} {n : String} :
    df.hasCol n = true ↔ ∃ v, df.cols.lookup n = some v := by
  constructor
  · intro h
    exact lookup_isSome_of_mem_keys (hasCol_iff_mem.mp h)
  · intro ⟨v, hv⟩
    rw [hasCol_iff_mem]
    by_contra hmem
    rw [lookup_none_of_not_mem_keys hmem] at hv
    cases hv

theorem lookup_none_of_not_hasCol {df : DF} {n : String} (h : df.hasCol n = false) :
    df.cols.lookup n = none := by
  apply lookup_none_of_not_mem_keys
  intro hmem
  have : df.hasCol n = true := hasCol_iff_mem.mpr hmem
  rw [h] at this
  cases this

theorem nrows_setCol (df : DF) (n : String) (v : List Cell) :
    (df.setCol n v).nrows = df.nrows := by
  unfold DF.setCol
  split <;> rfl

theorem nrows_dropCol (df : DF) (n : String) : (df.dropCol n).nrows = df.nrows := rfl

theorem nrows_appendCols (df : DF) (l : List (String × List Cell)) :
    (df.appendCols l).nrows = df.nrows := rfl

theorem columns_setCol_pos {df : DF} {n : String} (v : List Cell)
    (h : df.hasCol n = true) : (df.setCol n v).columns = df.columns := by
  unfold DF.setCol
  rw [if_pos h]
  show (df.cols.map _).map Prod.fst = _
  rw [List.map_map]
  apply List.map_congr_left
  intro p _
  by_cases hp : p.1 = n
  · simp [hp]
  · simp [hp]

theorem columns_setCol_neg {df : DF} {n : String} (v : List Cell)
    (h : df.hasCol n = false) : (df.setCol n v).columns = df.columns ++ [n] := by
  unfold DF.setCol
  rw [if_neg (by simp [h])]
  show (df.cols ++ [(n, v)]).map Prod.fst = _
  simp [DF.columns]

theorem hasCol_setCol_of {df : DF} {m n : String} {v : List Cell}
    (h : df.hasCol m = true) : (df.setCol n v).hasCol m = true := by
  rcases hb : df.hasCol n with _ | _
  · rw [hasCol_iff_mem, columns_setCol_neg v hb]
    exact List.mem_append_left _ (hasCol_iff_mem.mp h)
  · rw [hasCol_iff_mem, columns_setCol_pos v hb]
    exact hasCol_iff_mem.mp h

theorem hasCol_iff_mem_fst {df : DF} {n : String} :
    df.hasCol n = true ↔ n ∈ df.cols.map Prod.fst := hasCol_iff_mem

theorem not_hasCol_setCol {df : DF} {m n : String} {v : List Cell}
    (h : df.hasCol m = false) (hne : m ≠ n) : (df.setCol n v).hasCol m = false := by
  rcases hb : df.hasCol n with _ | _
  · rw [← Bool.not_eq_true, hasCol_iff_mem, columns_setCol_neg v hb]
    intro hmem
    rcases List.mem_append.mp hmem with h1 | h2
    · rw [← hasCol_iff_mem, h] at h1
      cases h1
    · exact hne (List.mem_singleton.mp h2)
  · rw [← Bool.not_eq_true, hasCol_iff_mem, columns_setCol_pos v hb]
    intro hmem
    rw [← hasCol_iff_mem, h] at hmem
    cases hmem

theorem lookup_map_setCol (n : String) (v : List Cell) {m : String} (hne : m ≠ n) :
    ∀ (l : List (String × List Cell)),
      (l.map (fun p => if p.1 = n then (n, v) else p)).lookup m = l.lookup m := by
  intro l
  induction l with
  | nil => rfl
  | cons hd tl ih =>
    obtain ⟨a, b⟩ := hd
    simp only [List.map_cons]
    by_cases hp : a = n
    · rw [if_pos hp]
      have hm : (m == n) = false := by simpa using hne
      have hm2 : (m == a) = false := by rw [hp]; exact hm
      simp [List.lookup, hm, hm2, ih]
    · rw [if_neg hp]
      by_cases hm : (m == a) = true
      · simp [List.lookup, hm]
      · have hm' : (m == a) = false := by simpa using hm
        simp [List.lookup, hm', ih]

theorem colD_setCol_ne {df : DF} {m n : String} (v : List Cell) (hne : m ≠ n) :
    (df.setCol n v).colD m = df.colD m := by
  unfold DF.setCol
  split
  · show ((df.cols.map _).lookup m).getD [] = _
    rw [lookup_map_setCol n v hne]
    rfl
  · show ((df.cols ++ [(n, v)]).lookup m).getD [] = _
    rcases hl : df.cols.lookup m with _ | w
    · rw [lookup_append_right hl]
      have hm : (m == n) = false := by simpa using hne
      show ((match m == n with | true => some v | false => (List.lookup m [])).getD []) = _
      rw [hm]
      simp [DF.colD, hl]
    · rw [lookup_append_left hl]
      simp [DF.colD, hl]

theorem mem_cols_setCol {df : DF} {m n : String} {v w : List Cell}
    (h : (m, v) ∈ df.cols) (hne : m ≠ n) : (m, v) ∈ (df.setCol n w).cols := by
  unfold DF.setCol
  split
  · show (m, v) ∈ df.cols.map _
    exact List.mem_map.mpr ⟨(m, v), h, by simp [hne]⟩
  · exact List.mem_append_left _ h

theorem mem_cols_setCol_self (df : DF) (n : String) (v : List Cell) :
    (n, v) ∈ (df.setCol n v).cols := by
  unfold DF.setCol
  split
  · next h =>
    obtain ⟨p, hp, hfst⟩ := List.mem_map.mp (hasCol_iff_mem_fst.mp h)
    show (n, v) ∈ df.cols.map _
    exact List.mem_map.mpr ⟨p, hp, by simp [hfst]⟩
  · exact List.mem_append_right _ (List.mem_singleton.mpr rfl)

theorem mem_cols_dropCol {df : DF} {m n : String} {v : List Cell}
    (h : (m, v) ∈ df.cols) (hne : m ≠ n) : (m, v) ∈ (df.dropCol n).cols := by
  apply List.mem_filter.mpr
  exact ⟨h, by simpa using hne⟩

theorem colD_dropCol_ne {df : DF} {m n : String} (hne : m ≠ n) :
    (df.dropCol n).colD m = df.colD m := by
  show ((df.cols.filter _).lookup m).getD [] = _
  rw [lookup_filter_ne hne]
  rfl

theorem hasCol_dropCol_of {df : DF} {m n : String}
    (h : df.hasCol m = true) (hne : m ≠ n) : (df.dropCol n).hasCol m = true := by
  obtain ⟨v, hv⟩ := hasCol_iff_lookup.mp h
  apply hasCol_iff_lookup.mpr
  exact ⟨v, by rwa [show (df.dropCol n).cols = df.cols.filter (fun p => p.1 != n) from rfl,
    lookup_filter_ne hne]⟩

theorem not_hasCol_dropCol {df : DF} {m n : String} (h : df.hasCol m = false) :
    (df.dropCol n).hasCol m = false := by
  rw [← Bool.not_eq_true, hasCol_iff_mem_fst]
  intro hmem
  obtain ⟨p, hp, hfst⟩ := List.mem_map.mp hmem
  have : m ∈ df.cols.map Prod.fst :=
    List.mem_map.mpr ⟨p, List.mem_of_mem_filter hp, hfst⟩
  have ht : df.hasCol m = true := hasCol_iff_mem_fst.mpr this
  rw [h] at ht
  cases ht

theorem mem_cols_appendCols_left {df : DF} {p : String × List Cell}
    (h : p ∈ df.cols) (l : List (String × List Cell)) : p ∈ (df.appendCols l).cols :=
  List.mem_append_left _ h

theorem mem_cols_appendCols_right (df : DF) {p : String × List Cell}
    {l : List (String × List Cell)} (h : p ∈ l) : p ∈ (df.appendCols l).cols :=
  List.mem_append_right _ h

theorem columns_appendCols (df : DF) (l : List (String × List Cell)) :
    (df.appendCols l).columns = df.columns ++ l.map Prod.fst := by
  show (df.cols ++ l).map Prod.fst = _
  simp [DF.columns]

theorem hasCol_appendCols_of {df : DF} {m : String}
    (h : df.hasCol m = true) (l : List (String × List Cell)) :
    (df.appendCols l).hasCol m = true := by
  rw [hasCol_iff_mem, columns_appendCols]
  exact List.mem_append_left _ (hasCol_iff_mem.mp h)

theorem not_hasCol_appendCols {df : DF} {m : String} {l : List (String × List Cell)}
    (h : df.hasCol m = false) (hl : m ∉ l.map Prod.fst) :
    (df.appendCols l).hasCol m = false := by
  rw [← Bool.not_eq_true, hasCol_iff_mem, columns_appendCols]
  intro hmem
  rcases List.mem_append.mp hmem with h1 | h2
  · have ht := hasCol_iff_mem.mpr h1
    rw [h] at ht
    cases ht
  · exact hl h2

theorem colD_appendCols_of_hasCol {df : DF} {m : String} (h : df.hasCol m = true)
    (l : List (String × List Cell)) : (df.appendCols l).colD m = df.colD m := by
  obtain ⟨v, hv⟩ := hasCol_iff_lookup.mp h
  show ((df.cols ++ l).lookup m).getD [] = _
  rw [lookup_append_left hv]
  simp [DF.colD, hv]

theorem columns_filterRows (df : DF) (mask : List Bool) :
    (df.filterRows mask).columns = df.columns := by
  show (df.cols.map _).map Prod.fst = _
  rw [List.map_map]
  rfl

theorem hasCol_filterRows (df : DF) (mask : List Bool) (m : String) :
    (df.filterRows mask).hasCol m = df.hasCol m := by
  unfold DF.hasCol
  rw [columns_filterRows]

theorem colD_filterRows (df : DF) (mask : List Bool) (m : String) :
    (df.filterRows mask).colD m = DF.applyMask mask (df.colD m) := by
  show ((df.cols.map (fun p => (p.1, DF.applyMask mask p.2))).lookup m).getD [] = _
  rw [lookup_map_value (DF.applyMask mask) df.cols m]
  rcases hl : df.cols.lookup m with _ | v
  · simp [DF.colD, hl, DF.applyMask]
  · simp [DF.colD, hl]

theorem nrows_finalNaSweep (df : DF) : (finalNaSweep df).nrows = df.nrows := rfl

theorem columns_finalNaSweep (df : DF) : (finalNaSweep df).columns = df.columns := by
  show (df.cols.map _).map Prod.fst = _
  rw [List.map_map]
  rfl

theorem hasCol_finalNaSweep (df : DF) (m : String) :
    (finalNaSweep df).hasCol m = df.hasCol m := by
  unfold DF.hasCol
  rw [columns_finalNaSweep]

theorem map_fillZero_of_not_na {v : List Cell} (h : Cell.na ∉ v) :
    v.map fillZero = v := by
  induction v with
  | nil => rfl
  | cons c cs ih =>
    simp only [List.mem_cons, not_or] at h
    simp only [List.map_cons]
    rw [ih h.2]
    have : fillZero c = c := by
      unfold fillZero
      rw [if_neg (fun he => h.1 he.symm)]
    rw [this]

theorem mem_cols_finalNaSweep {df : DF} {n : String} {v : List Cell}
    (h : (n, v) ∈ df.cols) (hna : Cell.na ∉ v) : (n, v) ∈ (finalNaSweep df).cols := by
  show (n, v) ∈ df.cols.map _
  apply List.mem_map.mpr
  refine ⟨(n, v), h, ?_⟩
  show (n, if isNumericCol v then v.map fillZero else v) = (n, v)
  rw [map_fillZero_of_not_na hna]
  split <;> rfl

/-!  ## Aligner lemmas -/

theorem add_missing_cons_pos {df : DF} {f : String} (F : List String)
    (h : df.hasCol f = true) :
    add_missing_features df (f :: F) = add_missing_features df F := by
  simp [add_missing_features, List.foldl, h]

theorem add_missing_cons_neg {df : DF} {f : String} (F : List String)
    (h : df.hasCol f = false) :
    add_missing_features df (f :: F)
      = add_missing_features (df.appendCols [(f, List.replicate df.nrows (Cell.num 0))]) F := by
  simp [add_missing_features, List.foldl, h]

theorem nrows_add_missing (F : List String) :
    ∀ (df : DF), (add_missing_features df F).nrows = df.nrows := by
  induction F with
  | nil => intro df; rfl
  | cons f F' ih =>
    intro df
    by_cases h : df.hasCol f = true
    · rw [add_missing_cons_pos F' h]
      exact ih df
    · rw [add_missing_cons_neg F' (by simpa using h)]
      rw [ih]
      rfl

theorem hasCol_add_missing_of (F : List String) :
    ∀ {df : DF} {n : String}, df.hasCol n = true →
      (add_missing_features df F).hasCol n = true := by
  induction F with
  | nil => intro df n h; exact h
  | cons f F' ih =>
    intro df n h
    by_cases hf : df.hasCol f = true
    · rw [add_missing_cons_pos F' hf]
      exact ih h
    · rw [add_missing_cons_neg F' (by simpa using hf)]
      exact ih (hasCol_appendCols_of h _)

theorem colD_add_missing_of_hasCol (F : List String) :
    ∀ {df : DF} {n : String}, df.hasCol n = true →
      (add_missing_features df F).colD n = df.colD n := by
  induction F with
  | nil => intro df n _; rfl
  | cons f F' ih =>
    intro df n h
    by_cases hf : df.hasCol f = true
    · rw [add_missing_cons_pos F' hf]
      exact ih h
    · rw [add_missing_cons_neg F' (by simpa using hf)]
      rw [ih (hasCol_appendCols_of h _)]
      exact colD_appendCols_of_hasCol h _

theorem hasCol_add_missing_mem (F : List String) :
    ∀ {df : DF} {n : String}, n ∈ F → (add_missing_features df F).hasCol n = true := by
  induction F with
  | nil => intro df n h; cases h
  | cons f F' ih =>
    intro df n hmem
    by_cases hf : df.hasCol f = true
    · rw [add_missing_cons_pos F' hf]
      rcases List.mem_cons.mp hmem with he | hm
      · exact hasCol_add_missing_of F' (he ▸ hf)
      · exact ih hm
    · have hfb : df.hasCol f = false := by simpa using hf
      rw [add_missing_cons_neg F' hfb]
      rcases List.mem_cons.mp hmem with he | hm
      · subst he
        apply hasCol_add_missing_of F'
        rw [hasCol_iff_mem, columns_appendCols]
        apply List.mem_append_right
        simp
      · exact ih hm

theorem colD_add_missing_of_missing (F : List String) :
    ∀ {df : DF} {n : String}, df.hasCol n = false → n ∈ F →
      (add_missing_features df F).colD n = List.replicate df.nrows (Cell.num 0) := by
  induction F with
  | nil => intro df n _ h; cases h
  | cons f F' ih =>
    intro df n h hmem
    by_cases he : n = f
    · subst he
      rw [add_missing_cons_neg F' h]
      set d₁ := df.appendCols [(n, List.replicate df.nrows (Cell.num 0))] with hd₁
      have hhas : d₁.hasCol n = true := by
        rw [hasCol_iff_mem, columns_appendCols]
        apply List.mem_append_right
        simp
      rw [colD_add_missing_of_hasCol F' hhas]
      show ((df.cols ++ [(n, List.replicate df.nrows (Cell.num 0))]).lookup n).getD [] = _
      rw [lookup_append_right (lookup_none_of_not_hasCol h)]
      simp [List.lookup]
    · have hm' : n ∈ F' := by
        rcases List.mem_cons.mp hmem with h1 | h2
        · exact absurd h1 he
        · exact h2
      by_cases hf : df.hasCol f = true
      · rw [add_missing_cons_pos F' hf]
        exact ih h hm'
      · have hfb : df.hasCol f = false := by simpa using hf
        rw [add_missing_cons_neg F' hfb]
        have h1 : (df.appendCols [(f, List.replicate df.nrows (Cell.num 0))]).hasCol n = false := by
          apply not_hasCol_appendCols h
          simpa using he
        rw [ih h1 hm']
        rfl

theorem add_missing_eq_self (F : List String) :
    ∀ {df : DF}, (∀ f ∈ F, df.hasCol f = true) → add_missing_features df F = df := by
  induction F with
  | nil => intro df _; rfl
  | cons f F' ih =>
    intro df h
    rw [add_missing_cons_pos F' (h f (List.mem_cons_self f F'))]
    exact ih (fun g hg => h g (List.mem_cons_of_mem f hg))

theorem select?_of_all {df : DF} {names : List String}
    (h : ∀ n ∈ names, df.hasCol n = true) :
    df.select? names = some ⟨df.nrows, names.map (fun n => (n, df.colD n))⟩ := by
  unfold DF.select?
  rw [if_pos (by rw [List.all_eq_true]; intro n hn; exact h n hn)]

/-- The aligned frame of `ensure_features`: the required names in order,
original values for present columns, zero fills for absent ones. -/
def alignedFrame (df : DF) (F : List String) : DF :=
  ⟨df.nrows,
    F.map (fun f =>
      (f, if df.hasCol f then df.colD f else List.replicate df.nrows (Cell.num 0)))⟩

theorem ensure_features_eq (df : DF) (F : List String) :
    ensure_features df F = some (alignedFrame df F) := by
  unfold ensure_features ensure_features_full
  show (add_missing_features df F).select? F = _
  rw [select?_of_all (fun n hn => hasCol_add_missing_mem F hn)]
  unfold alignedFrame
  rw [nrows_add_missing]
  congr 1
  congr 1
  apply List.map_congr_left
  intro f hf
  rcases h : df.hasCol f with _ | _
  · rw [colD_add_missing_of_missing F h hf]
    simp
  · rw [colD_add_missing_of_hasCol F h]
    simp

theorem columns_alignedFrame (df : DF) (F : List String) :
    (alignedFrame df F).columns = F := by
  show (F.map _).map Prod.fst = F
  rw [List.map_map]
  show F.map (fun f => f) = F
  exact List.map_id' F

theorem colD_alignedFrame {df : DF} {F : List String} {f : String} (hf : f ∈ F) :
    (alignedFrame df F).colD f
      = if df.hasCol f then df.colD f else List.replicate df.nrows (Cell.num 0) := by
  show ((F.map _).lookup f).getD [] = _
  rw [lookup_map_self _ F f hf]
  rfl

theorem ensure_features_idem (df : DF) (F : List String) :
    ensure_features (alignedFrame df F) F = some (alignedFrame df F) := by
  rw [ensure_features_eq]
  congr 1
  have hmap : F.map (fun f =>
        (f, if (alignedFrame df F).hasCol f = true then (alignedFrame df F).colD f
            else List.replicate (alignedFrame df F).nrows (Cell.num 0)))
      = F.map (fun f =>
        (f, if df.hasCol f = true then df.colD f
            else List.replicate df.nrows (Cell.num 0))) := by
    apply List.map_congr_left
    intro f hf
    have hhas : (alignedFrame df F).hasCol f = true := by
      rw [hasCol_iff_mem, columns_alignedFrame]
      exact hf
    rw [if_pos hhas, colD_alignedFrame hf]
  show (⟨(alignedFrame df F).nrows, F.map (fun f =>
        (f, if (alignedFrame df F).hasCol f = true then (alignedFrame df F).colD f
            else List.replicate (alignedFrame df F).nrows (Cell.num 0)))⟩ : DF)
      = alignedFrame df F
  rw [hmap]
  rfl

/-!  ## Stage lemmas: guarded column-mapping stages -/

theorem columns_boolStage (c : String) (df : DF) :
    (boolStage c df).columns = df.columns := by
  unfold boolStage
  split
  · next h => exact columns_setCol_pos _ h
  · rfl

theorem hasCol_boolStage (c : String) (df : DF) (m : String) :
    (boolStage c df).hasCol m = df.hasCol m := by
  unfold DF.hasCol
  rw [columns_boolStage]

theorem mem_cols_boolStage {c : String} {df : DF} {m : String} {v : List Cell}
    (h : (m, v) ∈ df.cols) (hne : m ≠ c) : (m, v) ∈ (boolStage c df).cols := by
  unfold boolStage
  split
  · exact mem_cols_setCol h hne
  · exact h

theorem colD_boolStage_ne {c : String} {df : DF} {m : String} (hne : m ≠ c) :
    (boolStage c df).colD m = df.colD m := by
  unfold boolStage
  split
  · exact colD_setCol_ne _ hne
  · rfl

theorem columns_toNumericStage (c : String) (df : DF) :
    (toNumericStage c df).columns = df.columns := by
  unfold toNumericStage
  split
  · next h => exact columns_setCol_pos _ h
  · rfl

theorem hasCol_toNumericStage (c : String) (df : DF) (m : String) :
    (toNumericStage c df).hasCol m = df.hasCol m := by
  unfold DF.hasCol
  rw [columns_toNumericStage]

theorem mem_cols_toNumericStage {c : String} {df : DF} {m : String} {v : List Cell}
    (h : (m, v) ∈ df.cols) (hne : m ≠ c) : (m, v) ∈ (toNumericStage c df).cols := by
  unfold toNumericStage
  split
  · exact mem_cols_setCol h hne
  · exact h

theorem colD_toNumericStage_ne {c : String} {df : DF} {m : String} (hne : m ≠ c) :
    (toNumericStage c df).colD m = df.colD m := by
  unfold toNumericStage
  split
  · exact colD_setCol_ne _ hne
  · rfl

theorem columns_toNumericFillStage (c : String) (df : DF) :
    (toNumericFillStage c df).columns = df.columns := by
  unfold toNumericFillStage
  split
  · next h => exact columns_setCol_pos _ h
  · rfl

theorem hasCol_toNumericFillStage (c : String) (df : DF) (m : String) :
    (toNumericFillStage c df).hasCol m = df.hasCol m := by
  unfold DF.hasCol
  rw [columns_toNumericFillStage]

theorem mem_cols_toNumericFillStage {c : String} {df : DF} {m : String} {v : List Cell}
    (h : (m, v) ∈ df.cols) (hne : m ≠ c) : (m, v) ∈ (toNumericFillStage c df).cols := by
  unfold toNumericFillStage
  split
  · exact mem_cols_setCol h hne
  · exact h

theorem colD_toNumericFillStage_ne {c : String} {df : DF} {m : String} (hne : m ≠ c) :
    (toNumericFillStage c df).colD m = df.colD m := by
  unfold toNumericFillStage
  split
  · exact colD_setCol_ne _ hne
  · rfl

/-!  ## Stage lemmas: one-hot expansion -/

theorem getDummies_keys (pfx : String) (vals : List String) :
    (getDummies pfx vals).map Prod.fst
      = (sortedDedup vals).map (fun c => pfx ++ "_" ++ c) := by
  unfold getDummies
  rw [List.map_map]
  rfl

theorem mem_sortedDedup {x : String} {l : List String} :
    x ∈ sortedDedup l ↔ x ∈ l := by
  unfold sortedDedup
  rw [List.mem_dedup, List.mem_insertionSort]

theorem nodup_sortedDedup (l : List String) : (sortedDedup l).Nodup :=
  List.nodup_dedup _

theorem mem_cols_oneHotStage {fb c : String} {df : DF} {m : String} {v : List Cell}
    (h : (m, v) ∈ df.cols) (hne : m ≠ c) : (m, v) ∈ (oneHotStage fb c df).cols := by
  unfold oneHotStage
  split
  · exact mem_cols_appendCols_left (mem_cols_dropCol h hne) _
  · exact h

theorem hasCol_oneHotStage_of {fb c : String} {df : DF} {m : String}
    (h : df.hasCol m = true) (hne : m ≠ c) : (oneHotStage fb c df).hasCol m = true := by
  unfold oneHotStage
  split
  · exact hasCol_appendCols_of (hasCol_dropCol_of h hne) _
  · exact h

theorem colD_oneHotStage_ne {fb c : String} {df : DF} {m : String}
    (h : df.hasCol m = true) (hne : m ≠ c) :
    (oneHotStage fb c df).colD m = df.colD m := by
  unfold oneHotStage
  split
  · rw [colD_appendCols_of_hasCol (hasCol_dropCol_of h hne), colD_dropCol_ne hne]
  · rfl

theorem not_hasCol_oneHotStage {fb c : String} {df : DF} {m : String}
    (h : df.hasCol m = false) (hd : ∀ s, m ≠ c ++ "_" ++ s) :
    (oneHotStage fb c df).hasCol m = false := by
  unfold oneHotStage
  split
  · apply not_hasCol_appendCols (not_hasCol_dropCol h)
    rw [getDummies_keys]
    intro hmem
    obtain ⟨s, _, hs⟩ := List.mem_map.mp hmem
    exact hd s hs.symm
  · exact h

theorem ohFold_mem {fb : String} {m : String} {v : List Cell} (L : List String) :
    ∀ {df : DF}, (∀ g ∈ L, m ≠ g) → (m, v) ∈ df.cols →
      (m, v) ∈ (ohFold fb L df).cols := by
  intro df hg h
  unfold ohFold
  exact foldl_preserve (fun d => (m, v) ∈ d.cols) (fun d c => oneHotStage fb c d) L df
    (fun g hgL d hd => mem_cols_oneHotStage hd (hg g hgL)) h

theorem ohFold_hasCol_of {fb : String} {m : String} (L : List String) :
    ∀ {df : DF}, (∀ g ∈ L, m ≠ g) → df.hasCol m = true →
      (ohFold fb L df).hasCol m = true := by
  intro df hg h
  unfold ohFold
  exact foldl_preserve (fun d => d.hasCol m = true) (fun d c => oneHotStage fb c d) L df
    (fun g hgL d hd => hasCol_oneHotStage_of hd (hg g hgL)) h

theorem ohFold_colD_ne {fb : String} {m : String} (L : List String) :
    ∀ {df : DF}, (∀ g ∈ L, m ≠ g) → df.hasCol m = true →
      (ohFold fb L df).colD m = df.colD m := by
  intro df hg h
  unfold ohFold
  have := foldl_preserve (fun d => d.hasCol m = true ∧ d.colD m = df.colD m) (fun d c => oneHotStage fb c d) L df
    (fun g hgL d hd =>
      ⟨hasCol_oneHotStage_of hd.1 (hg g hgL), by
        rw [colD_oneHotStage_ne hd.1 (hg g hgL)]; exact hd.2⟩)
    ⟨h, rfl⟩
  exact this.2

theorem ohFold_not_hasCol {fb : String} {m : String} (L : List String) :
    ∀ {df : DF}, (∀ g ∈ L, ∀ s, m ≠ g ++ "_" ++ s) → df.hasCol m = false →
      (ohFold fb L df).hasCol m = false := by
  intro df hg h
  unfold ohFold
  exact foldl_preserve (fun d => d.hasCol m = false) (fun d c => oneHotStage fb c d) L df
    (fun g hgL d hd => not_hasCol_oneHotStage hd (hg g hgL)) h

/-!  ## Stage lemmas: day expansion, time parsing, dates, text drops -/

theorem day_split (j : String) : "day_" ++ j = "day" ++ "_" ++ j := by
  apply String.ext
  rw [String.data_append, String.data_append, String.data_append]
  rfl

theorem start_hour_split : "start_hour" = "start" ++ "_" ++ "hour" := by
  apply String.ext
  rw [String.data_append, String.data_append]
  rfl

theorem end_hour_split : "end_hour" = "end" ++ "_" ++ "hour" := by
  apply String.ext
  rw [String.data_append, String.data_append]
  rfl

theorem jour_semaine_split : "jour_semaine" = "jour" ++ "_" ++ "semaine" := by
  apply String.ext
  rw [String.data_append, String.data_append]
  rfl

theorem append_right_inj {p s t : String} (h : p ++ s = p ++ t) : s = t := by
  have hd := congrArg String.data h
  rw [String.data_append, String.data_append] at hd
  exact String.ext (List.append_cancel_left hd)

theorem daysStage_eq_pos {df : DF} (h : df.hasCol "availableDays" = true) :
    daysStage df
      = (PREF_DAYS.foldl
          (fun d j =>
            d.setCol ("day_" ++ j)
              (((df.colD "availableDays").map encodeDays).map
                (fun ds => Cell.num (if ds.contains j then 1 else 0))))
          df).dropCol "availableDays" := by
  unfold daysStage
  rw [if_pos h]

theorem daysStage_eq_neg {df : DF} (h : df.hasCol "availableDays" = false) :
    daysStage df = df := by
  unfold daysStage
  rw [if_neg (by simp [h])]

theorem mem_cols_daysStage {df : DF} {m : String} {v : List Cell}
    (h : (m, v) ∈ df.cols) (hne : m ≠ "availableDays")
    (hd : ∀ j ∈ PREF_DAYS, m ≠ "day_" ++ j) : (m, v) ∈ (daysStage df).cols := by
  rcases hb : df.hasCol "availableDays" with _ | _
  · rw [daysStage_eq_neg hb]; exact h
  · rw [daysStage_eq_pos hb]
    apply mem_cols_dropCol _ hne
    exact foldl_preserve (fun d => (m, v) ∈ d.cols) _ PREF_DAYS df
      (fun j hj d hdm => mem_cols_setCol hdm (hd j hj)) h

theorem hasCol_daysStage_of {df : DF} {m : String}
    (h : df.hasCol m = true) (hne : m ≠ "availableDays") :
    (daysStage df).hasCol m = true := by
  rcases hb : df.hasCol "availableDays" with _ | _
  · rw [daysStage_eq_neg hb]; exact h
  · rw [daysStage_eq_pos hb]
    apply hasCol_dropCol_of _ hne
    exact foldl_preserve (fun d => d.hasCol m = true) _ PREF_DAYS df
      (fun j _ d hdm => hasCol_setCol_of hdm) h

theorem colD_daysStage_ne {df : DF} {m : String}
    (hne : m ≠ "availableDays") (hd : ∀ j ∈ PREF_DAYS, m ≠ "day_" ++ j) :
    (daysStage df).colD m = df.colD m := by
  rcases hb : df.hasCol "availableDays" with _ | _
  · rw [daysStage_eq_neg hb]
  · rw [daysStage_eq_pos hb]
    rw [colD_dropCol_ne hne]
    exact foldl_preserve (fun d => d.colD m = df.colD m) _ PREF_DAYS df
      (fun j hj d hdm => by
        show (d.setCol _ _).colD m = df.colD m
        rw [colD_setCol_ne _ (hd j hj)]
        exact hdm) rfl

theorem not_hasCol_daysStage {df : DF} {m : String}
    (h : df.hasCol m = false) (hd : ∀ j ∈ PREF_DAYS, m ≠ "day_" ++ j) :
    (daysStage df).hasCol m = false := by
  rcases hb : df.hasCol "availableDays" with _ | _
  · rw [daysStage_eq_neg hb]; exact h
  · rw [daysStage_eq_pos hb]
    apply not_hasCol_dropCol
    exact foldl_preserve (fun d => d.hasCol m = false) _ PREF_DAYS df
      (fun j hj d hdm => not_hasCol_setCol hdm (hd j hj)) h

theorem daysStage_day_mem {df : DF} (h : df.hasCol "availableDays" = true)
    {j : String} (hj : j ∈ PREF_DAYS) :
    ("day_" ++ j,
      ((df.colD "availableDays").map encodeDays).map
        (fun ds => Cell.num (if ds.contains j then 1 else 0)))
      ∈ (daysStage df).cols := by
  rw [daysStage_eq_pos h]
  apply mem_cols_dropCol _ (by
    rw [day_split]
    exact ne_of_no_underscore (by decide) "day" j)
  obtain ⟨l₁, l₂, hsplit⟩ := List.append_of_mem hj
  have hnodup : PREF_DAYS.Nodup := by decide
  rw [hsplit] at hnodup
  have hj2 : j ∉ l₂ := by
    have := (List.nodup_append.mp hnodup).2.1
    exact (List.nodup_cons.mp this).1
  rw [hsplit, List.foldl_append]
  set w := ((df.colD "availableDays").map encodeDays).map
    (fun ds => Cell.num (if ds.contains j then 1 else 0)) with hw
  show ("day_" ++ j, w) ∈ (l₂.foldl _ ((l₁.foldl _ df).setCol ("day_" ++ j) w)).cols
  apply foldl_preserve (fun d => ("day_" ++ j, w) ∈ d.cols) _ l₂
  · intro g hg d hd
    apply mem_cols_setCol hd
    intro he
    have : j = g := @append_right_inj "day_" j g he
    exact hj2 (this ▸ hg)
  · exact mem_cols_setCol_self _ _ _

theorem hourStage_eq_pos {src dst : String} {df : DF} (h : df.hasCol src = true) :
    hourStage src dst df
      = (df.setCol dst ((df.colD src).map parseHourCell)).dropCol src := by
  unfold hourStage
  rw [if_pos h]

theorem hourStage_eq_neg {src dst : String} {df : DF} (h : df.hasCol src = false) :
    hourStage src dst df = df := by
  unfold hourStage
  rw [if_neg (by simp [h])]

theorem mem_cols_hourStage {src dst : String} {df : DF} {m : String} {v : List Cell}
    (h : (m, v) ∈ df.cols) (h1 : m ≠ src) (h2 : m ≠ dst) :
    (m, v) ∈ (hourStage src dst df).cols := by
  rcases hb : df.hasCol src with _ | _
  · rw [hourStage_eq_neg hb]; exact h
  · rw [hourStage_eq_pos hb]
    exact mem_cols_dropCol (mem_cols_setCol h h2) h1

theorem hasCol_hourStage_of {src dst : String} {df : DF} {m : String}
    (h : df.hasCol m = true) (h1 : m ≠ src) :
    (hourStage src dst df).hasCol m = true := by
  rcases hb : df.hasCol src with _ | _
  · rw [hourStage_eq_neg hb]; exact h
  · rw [hourStage_eq_pos hb]
    exact hasCol_dropCol_of (hasCol_setCol_of h) h1

theorem colD_hourStage_ne {src dst : String} {df : DF} {m : String}
    (h1 : m ≠ src) (h2 : m ≠ dst) :
    (hourStage src dst df).colD m = df.colD m := by
  rcases hb : df.hasCol src with _ | _
  · rw [hourStage_eq_neg hb]
  · rw [hourStage_eq_pos hb, colD_dropCol_ne h1, colD_setCol_ne _ h2]

theorem not_hasCol_hourStage {src dst : String} {df : DF} {m : String}
    (h : df.hasCol m = false) (h2 : m ≠ dst) :
    (hourStage src dst df).hasCol m = false := by
  rcases hb : df.hasCol src with _ | _
  · rw [hourStage_eq_neg hb]; exact h
  · rw [hourStage_eq_pos hb]
    exact not_hasCol_dropCol (not_hasCol_setCol h h2)

theorem hourStage_pair_mem {src dst : String} {df : DF}
    (h : df.hasCol src = true) (hne : dst ≠ src) :
    (dst, (df.colD src).map parseHourCell) ∈ (hourStage src dst df).cols := by
  rw [hourStage_eq_pos h]
  exact mem_cols_dropCol (mem_cols_setCol_self _ _ _) hne

theorem dateStage_eq_neg {dtp : String → Option (Nat × Nat)} {df : DF}
    (h : df.hasCol "date" = false) : dateStage dtp df = df := by
  unfold dateStage
  rw [if_neg (by simp [h])]

theorem mem_cols_dateStage {dtp : String → Option (Nat × Nat)} {df : DF}
    {m : String} {v : List Cell} (h : (m, v) ∈ df.cols)
    (h1 : m ≠ "date") (h2 : m ≠ "mois") (h3 : m ≠ "jour_semaine") :
    (m, v) ∈ (dateStage dtp df).cols := by
  unfold dateStage
  split
  · exact mem_cols_dropCol (mem_cols_setCol (mem_cols_setCol h h2) h3) h1
  · exact h

theorem hasCol_dateStage_of {dtp : String → Option (Nat × Nat)} {df : DF} {m : String}
    (h : df.hasCol m = true) (h1 : m ≠ "date") :
    (dateStage dtp df).hasCol m = true := by
  unfold dateStage
  split
  · exact hasCol_dropCol_of (hasCol_setCol_of (hasCol_setCol_of h)) h1
  · exact h

theorem colD_dateStage_ne {dtp : String → Option (Nat × Nat)} {df : DF} {m : String}
    (h1 : m ≠ "date") (h2 : m ≠ "mois") (h3 : m ≠ "jour_semaine") :
    (dateStage dtp df).colD m = df.colD m := by
  unfold dateStage
  split
  · rw [colD_dropCol_ne h1, colD_setCol_ne _ h3, colD_setCol_ne _ h2]
  · rfl

theorem not_hasCol_dateStage {dtp : String → Option (Nat × Nat)} {df : DF} {m : String}
    (h : df.hasCol m = false) (h2 : m ≠ "mois") (h3 : m ≠ "jour_semaine") :
    (dateStage dtp df).hasCol m = false := by
  unfold dateStage
  split
  · exact not_hasCol_dropCol (not_hasCol_setCol (not_hasCol_setCol h h2) h3)
  · exact h

theorem mem_cols_sortiesTextDrop {df : DF} {m : String} {v : List Cell}
    (h : (m, v) ∈ df.cols) (hd : ∀ c ∈ SORTIES_REMOVE_TEXT_COLS, m ≠ c) :
    (m, v) ∈ (sortiesTextDrop df).cols := by
  unfold sortiesTextDrop
  exact foldl_preserve (fun d => (m, v) ∈ d.cols) _ SORTIES_REMOVE_TEXT_COLS df
    (fun c hc d hdm => mem_cols_dropCol hdm (hd c hc)) h

theorem hasCol_sortiesTextDrop_of {df : DF} {m : String}
    (h : df.hasCol m = true) (hd : ∀ c ∈ SORTIES_REMOVE_TEXT_COLS, m ≠ c) :
    (sortiesTextDrop df).hasCol m = true := by
  unfold sortiesTextDrop
  exact foldl_preserve (fun d => d.hasCol m = true) _ SORTIES_REMOVE_TEXT_COLS df
    (fun c hc d hdm => hasCol_dropCol_of hdm (hd c hc)) h

theorem colD_sortiesTextDrop_ne {df : DF} {m : String}
    (hd : ∀ c ∈ SORTIES_REMOVE_TEXT_COLS, m ≠ c) :
    (sortiesTextDrop df).colD m = df.colD m := by
  unfold sortiesTextDrop
  exact foldl_preserve (fun d => d.colD m = df.colD m) _ SORTIES_REMOVE_TEXT_COLS df
    (fun c hc d hdm => by
      show (d.dropCol c).colD m = df.colD m
      rw [colD_dropCol_ne (hd c hc)]
      exact hdm) rfl

theorem not_hasCol_sortiesTextDrop {df : DF} {m : String} (h : df.hasCol m = false) :
    (sortiesTextDrop df).hasCol m = false := by
  unfold sortiesTextDrop
  exact foldl_preserve (fun d => d.hasCol m = false) _ SORTIES_REMOVE_TEXT_COLS df
    (fun c _ d hdm => not_hasCol_dropCol hdm) h

/-!  ## Stage lemmas: boolean and numeric fold stages -/

theorem mem_cols_prefBoolFold {df : DF} {m : String} {v : List Cell}
    (h : (m, v) ∈ df.cols) (hd : ∀ c ∈ PREF_BOOL_COLS, m ≠ c) :
    (m, v) ∈ (prefBoolFold df).cols := by
  unfold prefBoolFold
  exact foldl_preserve (fun d => (m, v) ∈ d.cols) _ PREF_BOOL_COLS df
    (fun c hc d hdm => mem_cols_boolStage hdm (hd c hc)) h

theorem hasCol_prefBoolFold (df : DF) (m : String) :
    (prefBoolFold df).hasCol m = df.hasCol m := by
  unfold prefBoolFold
  exact foldl_preserve (fun d => d.hasCol m = df.hasCol m) _ PREF_BOOL_COLS df
    (fun c _ d hdm => by
      show (boolStage c d).hasCol m = df.hasCol m
      rw [hasCol_boolStage]
      exact hdm) rfl

theorem colD_prefBoolFold_ne {df : DF} {m : String}
    (hd : ∀ c ∈ PREF_BOOL_COLS, m ≠ c) :
    (prefBoolFold df).colD m = df.colD m := by
  unfold prefBoolFold
  exact foldl_preserve (fun d => d.colD m = df.colD m) _ PREF_BOOL_COLS df
    (fun c hc d hdm => by
      show (boolStage c d).colD m = df.colD m
      rw [colD_boolStage_ne (hd c hc)]
      exact hdm) rfl

theorem mem_cols_prefNumFold {df : DF} {m : String} {v : List Cell}
    (h : (m, v) ∈ df.cols) (hd : ∀ c ∈ ["latitude", "longitude", "averageSpeed"], m ≠ c) :
    (m, v) ∈ (prefNumFold df).cols := by
  unfold prefNumFold
  exact foldl_preserve (fun d => (m, v) ∈ d.cols) _ _ df
    (fun c hc d hdm => mem_cols_toNumericStage hdm (hd c hc)) h

theorem hasCol_prefNumFold (df : DF) (m : String) :
    (prefNumFold df).hasCol m = df.hasCol m := by
  unfold prefNumFold
  exact foldl_preserve (fun d => d.hasCol m = df.hasCol m) _ _ df
    (fun c _ d hdm => by
      show (toNumericStage c d).hasCol m = df.hasCol m
      rw [hasCol_toNumericStage]
      exact hdm) rfl

theorem mem_cols_sortiesBoolFold {df : DF} {m : String} {v : List Cell}
    (h : (m, v) ∈ df.cols) (hd : ∀ c ∈ SORTIES_BOOL_COLS, m ≠ c) :
    (m, v) ∈ (sortiesBoolFold df).cols := by
  unfold sortiesBoolFold
  exact foldl_preserve (fun d => (m, v) ∈ d.cols) _ SORTIES_BOOL_COLS df
    (fun c hc d hdm => mem_cols_boolStage hdm (hd c hc)) h

theorem hasCol_sortiesBoolFold (df : DF) (m : String) :
    (sortiesBoolFold df).hasCol m = df.hasCol m := by
  unfold sortiesBoolFold
  exact foldl_preserve (fun d => d.hasCol m = df.hasCol m) _ SORTIES_BOOL_COLS df
    (fun c _ d hdm => by
      show (boolStage c d).hasCol m = df.hasCol m
      rw [hasCol_boolStage]
      exact hdm) rfl

theorem mem_cols_sortiesNumFold {df : DF} {m : String} {v : List Cell}
    (h : (m, v) ∈ df.cols) (hd : ∀ c ∈ SORTIES_NUM_COLS, m ≠ c) :
    (m, v) ∈ (sortiesNumFold df).cols := by
  unfold sortiesNumFold
  exact foldl_preserve (fun d => (m, v) ∈ d.cols) _ SORTIES_NUM_COLS df
    (fun c hc d hdm => mem_cols_toNumericFillStage hdm (hd c hc)) h

theorem hasCol_sortiesNumFold (df : DF) (m : String) :
    (sortiesNumFold df).hasCol m = df.hasCol m := by
  unfold sortiesNumFold
  exact foldl_preserve (fun d => d.hasCol m = df.hasCol m) _ SORTIES_NUM_COLS df
    (fun c _ d hdm => by
      show (toNumericFillStage c d).hasCol m = df.hasCol m
      rw [hasCol_toNumericFillStage]
      exact hdm) rfl

theorem not_hasCol_prefFilterStage {df : DF} {m : String} (h : df.hasCol m = false) :
    (prefFilterStage df).hasCol m = false := by
  unfold prefFilterStage
  split
  · rw [hasCol_filterRows]; exact h
  · exact h

theorem hasCol_prefFilterStage (df : DF) (m : String) :
    (prefFilterStage df).hasCol m = df.hasCol m := by
  unfold prefFilterStage
  split
  · rw [hasCol_filterRows]
  · rfl

/-!  ## One-hot block properties -/

theorem filterOfMap {α β : Type} (f : α → β) (p : β → Bool) :
    ∀ (l : List α), (l.map f).filter p = (l.filter (fun a => p (f a))).map f := by
  intro l
  induction l with
  | nil => rfl
  | cons a t ih =>
    simp only [List.map_cons, List.filter]
    rcases h : p (f a) with _ | _
    · exact ih
    · rw [List.map_cons, ih]

theorem filter_beq_nil {l : List String} {a : String} (h : a ∉ l) :
    l.filter (fun c => a == c) = [] := by
  induction l with
  | nil => rfl
  | cons b t ih =>
    simp only [List.mem_cons, not_or] at h
    have hb : (a == b) = false := by simpa using h.1
    simp [List.filter, hb, ih h.2]

theorem count_filter_one {l : List String} {a : String} (hnd : l.Nodup) (ha : a ∈ l) :
    (l.filter (fun c => a == c)).length = 1 := by
  induction l with
  | nil => cases ha
  | cons b t ih =>
    obtain ⟨hb, ht⟩ := List.nodup_cons.mp hnd
    by_cases he : a = b
    · subst he
      simp only [List.filter, beq_self_eq_true]
      rw [filter_beq_nil hb]
      rfl
    · have hbeq : (a == b) = false := by simpa using he
      have ha' : a ∈ t := by
        rcases List.mem_cons.mp ha with h1 | h2
        · exact absurd h1 he
        · exact h2
      simp only [List.filter, hbeq]
      exact ih ht ha'

theorem getDummies_mem_shape {pfx : String} {vals : List String}
    {pr : String × List Cell} (h : pr ∈ getDummies pfx vals) :
    ∃ c ∈ sortedDedup vals,
      pr = (pfx ++ "_" ++ c, vals.map (fun v => Cell.num (if v = c then 1 else 0))) := by
  obtain ⟨c, hc, he⟩ := List.mem_map.mp h
  exact ⟨c, hc, he.symm⟩

theorem getDummies_no_na {pfx : String} {vals : List String}
    {pr : String × List Cell} (h : pr ∈ getDummies pfx vals) : Cell.na ∉ pr.2 := by
  obtain ⟨c, _, he⟩ := getDummies_mem_shape h
  rw [he]
  intro hmem
  obtain ⟨v, _, hv⟩ := List.mem_map.mp hmem
  cases hv

theorem getDummies_entry_01 {pfx : String} {vals : List String}
    {pr : String × List Cell} (h : pr ∈ getDummies pfx vals) {i : Nat}
    (hi : i < vals.length) :
    pr.2[i]? = some (Cell.num 1) ∨ pr.2[i]? = some (Cell.num 0) := by
  obtain ⟨c, _, he⟩ := getDummies_mem_shape h
  rw [he]
  show (vals.map (fun v => Cell.num (if v = c then 1 else 0)))[i]? = _ ∨ _
  rw [List.getElem?_map, List.getElem?_eq_getElem hi]
  by_cases hv : vals[i] = c
  · left; simp [hv]
  · right; simp [hv]

theorem getDummies_exactly_one (pfx : String) (vals : List String) {i : Nat}
    (hi : i < vals.length) :
    ((getDummies pfx vals).filter
      (fun pr => decide (pr.2[i]? = some (Cell.num 1)))).length = 1 := by
  unfold getDummies
  rw [filterOfMap]
  rw [List.length_map]
  have hcong : (sortedDedup vals).filter
        (fun c => decide (((vals.map (fun v => Cell.num (if v = c then 1 else 0)))[i]?)
          = some (Cell.num 1)))
      = (sortedDedup vals).filter (fun c => vals[i] == c) := by
    apply List.filter_congr
    intro c _
    rw [List.getElem?_map, List.getElem?_eq_getElem hi]
    by_cases hv : vals[i] = c
    · simp [hv]
    · simp [hv]
  rw [hcong]
  exact count_filter_one (nodup_sortedDedup vals)
    (mem_sortedDedup.mpr (List.getElem_mem hi))

theorem getDummies_fallback_mem {pfx fb : String} {cells : List Cell}
    (h : Cell.na ∈ cells) :
    (pfx ++ "_" ++ fb) ∈ (getDummies pfx (cells.map (fillCellStr fb))).map Prod.fst := by
  rw [getDummies_keys]
  apply List.mem_map.mpr
  refine ⟨fb, mem_sortedDedup.mpr ?_, rfl⟩
  exact List.mem_map.mpr ⟨Cell.na, h, rfl⟩

/-!  ## Column-name disjointness facts -/

theorem ne_of_split {f s b1 b2 : String} (hf : '_' ∉ f.data) (hb : '_' ∉ b1.data)
    (hne : f ≠ b1) : f ++ "_" ++ s ≠ b1 ++ "_" ++ b2 :=
  fun he => hne (split_unique he hf hb).1

theorem pref_onehot_no_underscore : ∀ g ∈ PREF_ONE_HOT_COLS, '_' ∉ g.data := by decide

theorem pref_bool_no_underscore : ∀ g ∈ PREF_BOOL_COLS, '_' ∉ g.data := by decide

/-- Every dummy name `f_s` produced while one-hot expanding a preference
field is distinct from every column name later stages of the preferences
encoder read, write, or drop. -/
theorem pref_dummy_safe {f : String} (hf : f ∈ PREF_ONE_HOT_COLS) (s : String) :
    (∀ g ∈ PREF_ONE_HOT_COLS, f ++ "_" ++ s ≠ g) ∧
    (∀ c ∈ PREF_BOOL_COLS, f ++ "_" ++ s ≠ c) ∧
    f ++ "_" ++ s ≠ "availableDays" ∧
    (∀ j ∈ PREF_DAYS, f ++ "_" ++ s ≠ "day_" ++ j) ∧
    f ++ "_" ++ s ≠ "start" ∧ f ++ "_" ++ s ≠ "end" ∧
    f ++ "_" ++ s ≠ "start_hour" ∧ f ++ "_" ++ s ≠ "end_hour" ∧
    (∀ c ∈ ["latitude", "longitude", "averageSpeed"], f ++ "_" ++ s ≠ c) := by
  have hfU : '_' ∉ f.data := pref_onehot_no_underscore f hf
  have hfday : f ≠ "day" :=
    (by decide : ∀ g ∈ PREF_ONE_HOT_COLS, g ≠ "day") f hf
  have hfstart : f ≠ "start" :=
    (by decide : ∀ g ∈ PREF_ONE_HOT_COLS, g ≠ "start") f hf
  have hfend : f ≠ "end" :=
    (by decide : ∀ g ∈ PREF_ONE_HOT_COLS, g ≠ "end") f hf
  refine ⟨fun g hg => ne_of_no_underscore (pref_onehot_no_underscore g hg) f s,
    fun c hc => ne_of_no_underscore (pref_bool_no_underscore c hc) f s,
    ne_of_no_underscore (by decide) f s,
    fun j hj => by rw [day_split]; exact ne_of_split hfU (by decide) hfday,
    ne_of_no_underscore (by decide) f s,
    ne_of_no_underscore (by decide) f s,
    by rw [start_hour_split]; exact ne_of_split hfU (by decide) hfstart,
    by rw [end_hour_split]; exact ne_of_split hfU (by decide) hfend,
    fun c hc => ne_of_no_underscore (by revert hc; revert c; decide) f s⟩

theorem option_camping_split : "option_camping" = "option" ++ "_" ++ "camping" := by
  apply String.ext
  rw [String.data_append, String.data_append]
  rfl

theorem duree_estimee_split : "duree_estimee" = "duree" ++ "_" ++ "estimee" := by
  apply String.ext
  rw [String.data_append, String.data_append]
  rfl

theorem depart_lat_split : "depart_lat" = "depart" ++ "_" ++ "lat" := by
  apply String.ext
  rw [String.data_append, String.data_append]
  rfl

theorem depart_lon_split : "depart_lon" = "depart" ++ "_" ++ "lon" := by
  apply String.ext
  rw [String.data_append, String.data_append]
  rfl

theorem arrivee_lat_split : "arrivee_lat" = "arrivee" ++ "_" ++ "lat" := by
  apply String.ext
  rw [String.data_append, String.data_append]
  rfl

theorem arrivee_lon_split : "arrivee_lon" = "arrivee" ++ "_" ++ "lon" := by
  apply String.ext
  rw [String.data_append, String.data_append]
  rfl

/-- Every dummy name `f_s` produced while one-hot expanding `difficulte`
or `type` is distinct from every column name later stages of the outings
encoder read, write, or drop. -/
theorem sorties_dummy_safe {f : String} (hf : f = "difficulte" ∨ f = "type")
    (s : String) :
    f ++ "_" ++ s ≠ "type" ∧
    (∀ c ∈ SORTIES_BOOL_COLS, f ++ "_" ++ s ≠ c) ∧
    (∀ c ∈ SORTIES_NUM_COLS, f ++ "_" ++ s ≠ c) ∧
    f ++ "_" ++ s ≠ "date" ∧ f ++ "_" ++ s ≠ "mois" ∧
    f ++ "_" ++ s ≠ "jour_semaine" := by
  have hfU : '_' ∉ f.data := by rcases hf with h | h <;> subst h <;> decide
  have hfo : f ≠ "option" := by rcases hf with h | h <;> subst h <;> decide
  have hfd : f ≠ "duree" := by rcases hf with h | h <;> subst h <;> decide
  have hfdep : f ≠ "depart" := by rcases hf with h | h <;> subst h <;> decide
  have hfarr : f ≠ "arrivee" := by rcases hf with h | h <;> subst h <;> decide
  have hfj : f ≠ "jour" := by rcases hf with h | h <;> subst h <;> decide
  refine ⟨ne_of_no_underscore (by decide) f s, ?_, ?_,
    ne_of_no_underscore (by decide) f s,
    ne_of_no_underscore (by decide) f s,
    by rw [jour_semaine_split]; exact ne_of_split hfU (by decide) hfj⟩
  · intro c hc
    rcases List.mem_cons.mp hc with h1 | h2
    · subst h1
      rw [option_camping_split]
      exact ne_of_split hfU (by decide) hfo
    · have : c = "camping" := by
        rcases List.mem_cons.mp h2 with h3 | h4
        · exact h3
        · cases h4
      subst this
      exact ne_of_no_underscore (by decide) f s
  · intro c hc
    rcases List.mem_cons.mp hc with h1 | hc
    · subst h1; exact ne_of_no_underscore (by decide) f s
    rcases List.mem_cons.mp hc with h1 | hc
    · subst h1; exact ne_of_no_underscore (by decide) f s
    rcases List.mem_cons.mp hc with h1 | hc
    · subst h1
      rw [duree_estimee_split]
      exact ne_of_split hfU (by decide) hfd
    rcases List.mem_cons.mp hc with h1 | hc
    · subst h1
      rw [depart_lat_split]
      exact ne_of_split hfU (by decide) hfdep
    rcases List.mem_cons.mp hc with h1 | hc
    · subst h1
      rw [depart_lon_split]
      exact ne_of_split hfU (by decide) hfdep
    rcases List.mem_cons.mp hc with h1 | hc
    · subst h1
      rw [arrivee_lat_split]
      exact ne_of_split hfU (by decide) hfarr
    rcases List.mem_cons.mp hc with h1 | hc
    · subst h1
      rw [arrivee_lon_split]
      exact ne_of_split hfU (by decide) hfarr
    · cases hc

/-!  ## DataFrame-construction and result-building lemmas -/

theorem mem_addKeys (r : RawRecord) :
    ∀ (acc : List String) (k : String),
      k ∈ r.foldl (fun acc2 kv => if acc2.contains kv.1 then acc2 else acc2 ++ [kv.1]) acc
        ↔ k ∈ acc ∨ k ∈ r.map Prod.fst := by
  induction r with
  | nil => intro acc k; simp
  | cons kv r' ih =>
    intro acc k
    show k ∈ r'.foldl _ (if acc.contains kv.1 then acc else acc ++ [kv.1]) ↔ _
    rw [ih]
    constructor
    · intro h
      rcases h with h1 | h2
      · split at h1
        · exact Or.inl h1
        · rcases List.mem_append.mp h1 with ha | hb
          · exact Or.inl ha
          · exact Or.inr (by simp [List.mem_singleton.mp hb])
      · exact Or.inr (by simp [h2])
    · intro h
      rcases h with h1 | h2
      · left
        split
        · exact h1
        · exact List.mem_append_left _ h1
      · simp only [List.map_cons, List.mem_cons] at h2
        rcases h2 with he | hm
        · left
          split
          · next hc =>
            rw [he]
            simpa using hc
          · exact List.mem_append_right _ (by simp [he])
        · right
          simpa using hm

theorem mem_collect_aux :
    ∀ (rs : List RawRecord) (acc : List String) (k : String),
      k ∈ rs.foldl
          (fun a r =>
            r.foldl (fun acc2 kv => if acc2.contains kv.1 then acc2 else acc2 ++ [kv.1]) a)
          acc
        ↔ k ∈ acc ∨ ∃ r ∈ rs, k ∈ r.map Prod.fst := by
  intro rs
  induction rs with
  | nil => intro acc k; simp
  | cons r rs' ih =>
    intro acc k
    show k ∈ rs'.foldl _ (r.foldl _ acc) ↔ _
    rw [ih, mem_addKeys]
    constructor
    · intro h
      rcases h with (h1 | h2) | h3
      · exact Or.inl h1
      · exact Or.inr ⟨r, List.mem_cons_self r rs', h2⟩
      · obtain ⟨r', hr', hk⟩ := h3
        exact Or.inr ⟨r', List.mem_cons_of_mem r hr', hk⟩
    · intro h
      rcases h with h1 | h2
      · exact Or.inl (Or.inl h1)
      · obtain ⟨r', hr', hk⟩ := h2
        rcases List.mem_cons.mp hr' with he | hm
        · exact Or.inl (Or.inr (he ▸ hk))
        · exact Or.inr ⟨r', hm, hk⟩

theorem mem_collectKeys {rs : List RawRecord} {k : String} :
    k ∈ collectKeys rs ↔ ∃ r ∈ rs, k ∈ r.map Prod.fst := by
  unfold collectKeys
  rw [mem_collect_aux]
  simp

theorem columns_pdDataFrame (rs : List RawRecord) :
    (pdDataFrame rs).columns = collectKeys rs := by
  show (List.map _ _).map Prod.fst = _
  rw [List.map_map]
  show (collectKeys rs).map (fun k => k) = _
  exact List.map_id' _

theorem nrows_pdDataFrame (rs : List RawRecord) : (pdDataFrame rs).nrows = rs.length := rfl

theorem hasCol_pdDataFrame_iff {rs : List RawRecord} {k : String} :
    (pdDataFrame rs).hasCol k = true ↔ ∃ r ∈ rs, k ∈ r.map Prod.fst := by
  rw [hasCol_iff_mem, columns_pdDataFrame, mem_collectKeys]

theorem lookup_isSome_iff_mem_keys {β : Type} {r : List (String × β)} {k : String} :
    (r.lookup k).isSome = true ↔ k ∈ r.map Prod.fst := by
  constructor
  · intro h
    by_contra hmem
    rw [lookup_none_of_not_mem_keys hmem] at h
    cases h
  · intro h
    obtain ⟨v, hv⟩ := lookup_isSome_of_mem_keys h
    rw [hv]
    rfl

theorem hasCol_pdDataFrame_any (rs : List RawRecord) (k : String) :
    (pdDataFrame rs).hasCol k = rs.any (fun r => (r.lookup k).isSome) := by
  rcases h : (pdDataFrame rs).hasCol k with _ | _
  · rcases h2 : rs.any (fun r => (r.lookup k).isSome) with _ | _
    · rfl
    · exfalso
      obtain ⟨r, hr, hs⟩ := List.any_eq_true.mp h2
      have : (pdDataFrame rs).hasCol k = true :=
        hasCol_pdDataFrame_iff.mpr ⟨r, hr, lookup_isSome_iff_mem_keys.mp hs⟩
      rw [h] at this
      cases this
  · obtain ⟨r, hr, hk⟩ := hasCol_pdDataFrame_iff.mp h
    have : rs.any (fun r => (r.lookup k).isSome) = true :=
      List.any_eq_true.mpr ⟨r, hr, lookup_isSome_iff_mem_keys.mpr hk⟩
    rw [this]

theorem colD_pdDataFrame {rs : List RawRecord} {k : String}
    (h : (pdDataFrame rs).hasCol k = true) :
    (pdDataFrame rs).colD k = rs.map (fun r => (r.lookup k).getD Cell.na) := by
  have hk : k ∈ collectKeys rs := by
    rw [← columns_pdDataFrame]
    exact hasCol_iff_mem.mp h
  show (((collectKeys rs).map
      (fun k => (k, rs.map (fun r => (r.lookup k).getD Cell.na)))).lookup k).getD [] = _
  rw [lookup_map_self _ _ k hk]
  rfl

theorem buildResult_props :
    ∀ (ids : List Cell) (clusters : List Int) (r : List (Cell × Int)),
      buildResult ids clusters = some r →
      r.map Prod.fst = ids ∧ r.length = ids.length
        ∧ r.map Prod.snd = clusters.take ids.length := by
  intro ids
  induction ids with
  | nil =>
    intro clusters r h
    have he : buildResult [] clusters = some [] := rfl
    rw [he] at h
    cases h
    exact ⟨rfl, rfl, rfl⟩
  | cons i is2 ih =>
    intro clusters r h
    cases clusters with
    | nil =>
      have he : buildResult (i :: is2) [] = none := rfl
      rw [he] at h
      cases h
    | cons c cs =>
      have he : buildResult (i :: is2) (c :: cs)
          = (buildResult is2 cs).map (fun r0 => (i, c) :: r0) := rfl
      rw [he] at h
      rcases hb : buildResult is2 cs with _ | r'
      · rw [hb] at h
        cases h
      · rw [hb] at h
        have h2s : some ((i, c) :: r') = some r := h
        obtain ⟨h1, h2, h3⟩ := ih cs r' hb
        cases h2s
        refine ⟨by simp [h1], by simp [h2], by simp [h3]⟩

/-!  ## Further helper lemmas for the claims -/

theorem mem_cols_add_missing (F : List String) :
    ∀ {df : DF} {p : String × List Cell}, p ∈ df.cols →
      p ∈ (add_missing_features df F).cols := by
  induction F with
  | nil => intro df p h; exact h
  | cons f F' ih =>
    intro df p h
    by_cases hf : df.hasCol f = true
    · rw [add_missing_cons_pos F' hf]
      exact ih h
    · rw [add_missing_cons_neg F' (by simpa using hf)]
      exact ih (mem_cols_appendCols_left h _)

theorem add_missing_zero_mem (F : List String) :
    ∀ {df : DF} {f : String}, f ∈ F → df.hasCol f = false →
      (f, List.replicate df.nrows (Cell.num 0)) ∈ (add_missing_features df F).cols := by
  induction F with
  | nil => intro df f h; cases h
  | cons g F' ih =>
    intro df f hmem h
    by_cases he : f = g
    · subst he
      rw [add_missing_cons_neg F' h]
      apply mem_cols_add_missing
      exact List.mem_append_right _ (by simp)
    · have hm' : f ∈ F' := by
        rcases List.mem_cons.mp hmem with h1 | h2
        · exact absurd h1 he
        · exact h2
      by_cases hg : df.hasCol g = true
      · rw [add_missing_cons_pos F' hg]
        exact ih hm' h
      · rw [add_missing_cons_neg F' (by simpa using hg)]
        have h1 : (df.appendCols [(g, List.replicate df.nrows (Cell.num 0))]).hasCol f
            = false := not_hasCol_appendCols h (by simpa using he)
        exact ih hm' h1

theorem parseHourCell_shape (c : Cell) :
    parseHourCell c = Cell.na ∨ ∃ q : ℚ, parseHourCell c = Cell.num q := by
  cases c with
  | na => exact Or.inl rfl
  | str s =>
    have he : parseHourCell (Cell.str s)
        = (match parseHour (cellToStr (Cell.str s)) with
           | some q => Cell.num q | none => Cell.na) := rfl
    rw [he]
    rcases h : parseHour (cellToStr (Cell.str s)) with _ | q
    · exact Or.inl rfl
    · exact Or.inr ⟨q, rfl⟩
  | num q0 =>
    have he : parseHourCell (Cell.num q0)
        = (match parseHour (cellToStr (Cell.num q0)) with
           | some q => Cell.num q | none => Cell.na) := rfl
    rw [he]
    rcases h : parseHour (cellToStr (Cell.num q0)) with _ | q
    · exact Or.inl rfl
    · exact Or.inr ⟨q, rfl⟩
  | bool b =>
    have he : parseHourCell (Cell.bool b)
        = (match parseHour (cellToStr (Cell.bool b)) with
           | some q => Cell.num q | none => Cell.na) := rfl
    rw [he]
    rcases h : parseHour (cellToStr (Cell.bool b)) with _ | q
    · exact Or.inl rfl
    · exact Or.inr ⟨q, rfl⟩

theorem isNumericCol_map_parseHourCell (v : List Cell) :
    isNumericCol (v.map parseHourCell) = true := by
  unfold isNumericCol
  rw [List.all_eq_true]
  intro x hx
  obtain ⟨c, _, hc⟩ := List.mem_map.mp hx
  rcases parseHourCell_shape c with h | ⟨q, h⟩
  · rw [← hc, h]
  · rw [← hc, h]

theorem mem_cols_finalNaSweep_numeric {df : DF} {n : String} {w : List Cell}
    (h : (n, w) ∈ df.cols) (hnum : isNumericCol w = true) :
    (n, w.map fillZero) ∈ (finalNaSweep df).cols := by
  show (n, w.map fillZero) ∈ df.cols.map _
  apply List.mem_map.mpr
  refine ⟨(n, w), h, ?_⟩
  show (n, if isNumericCol w then w.map fillZero else w) = _
  rw [if_pos hnum]

theorem not_na_mem_map_fillZero (v : List Cell) : Cell.na ∉ v.map fillZero := by
  intro hmem
  obtain ⟨c, _, hc⟩ := List.mem_map.mp hmem
  unfold fillZero at hc
  split at hc
  · cases hc
  · next hne => exact hne hc

theorem parseHour_0830 : parseHour "08:30" = some (17/2 : ℚ) := by
  have h1 : splitStr ':' "08:30" = ["08", "30"] := by decide
  have h2 : parseIntStr? "08" = some 8 := by decide
  have h3 : parseIntStr? "30" = some 30 := by decide
  unfold parseHour
  rw [h1]
  simp only [h2, h3]
  norm_num

theorem parseHourCell_0830 : parseHourCell (Cell.str "08:30") = Cell.num (17/2 : ℚ) := by
  show (match parseHour "08:30" with | some q => Cell.num q | none => Cell.na) = _
  rw [parseHour_0830]

/-!  ## Runner unfolding lemmas -/

theorem predict_sorties_clusters_empty (MS : SortiesModels)
    (dtp : String → Option (Nat × Nat)) :
    predict_sorties_clusters [] MS dtp = some [] := rfl

theorem predict_sorties_clusters_eq (sorties : List RawRecord) (MS : SortiesModels)
    (dtp : String → Option (Nat × Nat)) (hne : sorties.isEmpty = false) :
    predict_sorties_clusters sorties MS dtp
      = buildResult
          (if (pdDataFrame sorties).hasCol "id" then (pdDataFrame sorties).colD "id"
           else (List.range (pdDataFrame sorties).nrows).map (fun (i : Nat) => Cell.num (i : ℚ)))
          (MS.predict
            (alignedFrame (prepare_sorties_dataframe dtp (pdDataFrame sorties))
              MS.features)) := by
  have he : predict_sorties_clusters sorties MS dtp
      = if sorties.isEmpty then some []
        else
          match ensure_features (prepare_sorties_dataframe dtp (pdDataFrame sorties))
              MS.features with
          | none => none
          | some dff =>
            buildResult
              (if (pdDataFrame sorties).hasCol "id" then (pdDataFrame sorties).colD "id"
               else (List.range (pdDataFrame sorties).nrows).map
                 (fun (i : Nat) => Cell.num (i : ℚ)))
              (MS.predict dff) := rfl
  rw [he, if_neg (by simp [hne]), ensure_features_eq]

theorem spec_outing_ids_ids (sorties : List RawRecord) :
    (if (pdDataFrame sorties).hasCol "id" then (pdDataFrame sorties).colD "id"
     else (List.range (pdDataFrame sorties).nrows).map (fun (i : Nat) => Cell.num (i : ℚ)))
      = spec_outing_ids sorties := by
  unfold spec_outing_ids
  rcases h : (pdDataFrame sorties).hasCol "id" with _ | _
  · rw [if_neg (by simp), if_neg ?_, nrows_pdDataFrame]
    rw [hasCol_pdDataFrame_any] at h
    simp [h]
  · rw [if_pos rfl, if_pos ?_, colD_pdDataFrame h]
    rw [hasCol_pdDataFrame_any] at h
    simpa using h

theorem spec_outing_ids_length (sorties : List RawRecord) :
    (spec_outing_ids sorties).length = sorties.length := by
  unfold spec_outing_ids
  split
  · rw [List.length_map]
  · rw [List.length_map, List.length_range]

theorem runMatch_eq (prefs : RawRecord) (sorties : List RawRecord) (MP : PrefModels)
    (MS : SortiesModels) (dtp : String → Option (Nat × Nat)) :
    runMatch prefs sorties MP MS dtp
      = match predict_user_cluster prefs MP with
        | none => none
        | some user_cluster =>
          match predict_sorties_clusters sorties MS dtp with
          | none => none
          | some swc =>
            some ⟨user_cluster, swc,
              (swc.filter (fun it => it.2 == user_cluster)).map Prod.fst⟩ := rfl

/-!  ## Claim theorems -/

/-- C2: for every input table and ordered feature list, `ensure_features`
returns exactly the required names as columns, in the given order; a
required name absent from the input becomes a column of zeros, a present
one keeps its values, and every input column not in the list is dropped
(the result has no other columns), whatever the input columns are. -/
theorem C2_align_exact (df : DF) (F : List String) :
    ensure_features df F
      = some ⟨df.nrows,
          F.map (fun f =>
            (f, if df.hasCol f then df.colD f
                else List.replicate df.nrows (Cell.num 0)))⟩ :=
  ensure_features_eq df F

/-- C3: alignment is idempotent and total: `ensure_features` always
succeeds (never raises), and re-aligning its result with the same
feature list returns that result unchanged. -/
theorem C3_align_idem_total (df : DF) (F : List String) :
    ∃ r, ensure_features df F = some r ∧ ensure_features r F = some r :=
  ⟨alignedFrame df F, ensure_features_eq df F, ensure_features_idem df F⟩

/-- C10: `ensure_features` mutates the caller frame in place — after the
call the caller frame keeps all its columns and has gained a zero-filled
column for every required name it lacked (so the frame differs whenever
one was missing) — whereas both encoders copy their input first and
return the caller frame unchanged. -/
theorem C10_align_mutates_encoders_copy (df : DF) (F : List String) :
    (∀ p ∈ df.cols, p ∈ (ensure_features_full df F).1.cols) ∧
    (∀ f ∈ F, (ensure_features_full df F).1.hasCol f = true) ∧
    (∀ f ∈ F, df.hasCol f = false →
      (f, List.replicate df.nrows (Cell.num 0)) ∈ (ensure_features_full df F).1.cols) ∧
    (∀ f ∈ F, df.hasCol f = false → (ensure_features_full df F).1 ≠ df) ∧
    (prepare_preferences_dataframe_full df
      = (df, prepare_preferences_dataframe df)) ∧
    (∀ dtp, prepare_sorties_dataframe_full dtp df
      = (df, prepare_sorties_dataframe dtp df)) := by
  refine ⟨fun p hp => mem_cols_add_missing F hp,
    fun f hf => hasCol_add_missing_mem F hf,
    fun f hf h0 => add_missing_zero_mem F hf h0,
    fun f hf h0 he => ?_, rfl, fun _ => rfl⟩
  have h1 : (ensure_features_full df F).1.hasCol f = true := hasCol_add_missing_mem F hf
  rw [he, h0] at h1
  cases h1

/-- C10 witness: on a one-column frame aligned against `["a", "b"]`, the
caller frame gains the zero column `b` and is no longer equal to the
original frame. -/
theorem C10_witness :
    ("b", List.replicate 1 (Cell.num 0))
        ∈ (ensure_features_full ⟨1, [("a", [Cell.num 5])]⟩ ["a", "b"]).1.cols ∧
      (ensure_features_full ⟨1, [("a", [Cell.num 5])]⟩ ["a", "b"]).1
        ≠ ⟨1, [("a", [Cell.num 5])]⟩ :=
  ⟨(C10_align_mutates_encoders_copy ⟨1, [("a", [Cell.num 5])]⟩ ["a", "b"]).2.2.1
      "b" (by decide) (by decide),
    (C10_align_mutates_encoders_copy ⟨1, [("a", [Cell.num 5])]⟩ ["a", "b"]).2.2.2.1
      "b" (by decide) (by decide)⟩

/-- C4: for an empty outings list, the outing-side prediction
short-circuits to the empty result for every model and every date
parser (so the outing artifacts are never consulted), and the match
result has an empty outing-cluster list and an empty matched-id list. -/
theorem C4_empty_outings (MS MS' : SortiesModels)
    (dtp dtp' : String → Option (Nat × Nat)) (prefs : RawRecord) (MP : PrefModels) :
    predict_sorties_clusters [] MS dtp = some [] ∧
    runMatch prefs [] MP MS dtp = runMatch prefs [] MP MS' dtp' ∧
    (∀ res, runMatch prefs [] MP MS dtp = some res →
      res.sortiesWithClusters = [] ∧ res.matchedSortieIds = []) := by
  refine ⟨rfl, ?_, ?_⟩
  · rw [runMatch_eq, runMatch_eq]
    rcases predict_user_cluster prefs MP with _ | uc
    · rfl
    · rfl
  · intro res h
    rw [runMatch_eq] at h
    rcases hu : predict_user_cluster prefs MP with _ | uc
    · rw [hu] at h
      cases h
    · rw [hu] at h
      have h2 : some (⟨uc, [], []⟩ : MatchResult) = some res := h
      cases h2
      exact ⟨rfl, rfl⟩

/-- C4 witness: a concrete request with an empty outings list produces
empty lists through the real pipeline. -/
theorem C4_witness :
    (runMatch [("level", Cell.str "BEGINNER")] []
        ⟨[], fun df => List.replicate df.nrows 0⟩
        ⟨[], fun df => List.replicate df.nrows 0⟩ (fun _ => none)
      = some ⟨0, [], []⟩) ∧
    (⟨0, [], []⟩ : MatchResult).sortiesWithClusters = [] ∧
    (⟨0, [], []⟩ : MatchResult).matchedSortieIds = [] := by
  have h : runMatch [("level", Cell.str "BEGINNER")] []
      ⟨[], fun df => List.replicate df.nrows 0⟩
      ⟨[], fun df => List.replicate df.nrows 0⟩ (fun _ => none)
      = some ⟨0, [], []⟩ := by decide
  refine ⟨h, ?_⟩
  exact (C4_empty_outings ⟨[], fun df => List.replicate df.nrows 0⟩
    ⟨[], fun df => List.replicate df.nrows 0⟩ (fun _ => none) (fun _ => none)
    [("level", Cell.str "BEGINNER")] ⟨[], fun df => List.replicate df.nrows 0⟩).2.2
    ⟨0, [], []⟩ h

/-- C1: whenever the match pipeline completes (every outing receives a
cluster id), the outing-cluster list pairs, in original order, each
outing with the identifier it carried before encoding — the value of the
`id` column when the outings table has one, the positional index 0..N-1
otherwise — and the matched-id list is exactly the ids of the outings
whose cluster id equals the user cluster id, in the original outing
order. -/
theorem C1_match_ids (prefs : RawRecord) (sorties : List RawRecord) (MP : PrefModels)
    (MS : SortiesModels) (dtp : String → Option (Nat × Nat)) (res : MatchResult)
    (h : runMatch prefs sorties MP MS dtp = some res) :
    res.sortiesWithClusters.map Prod.fst = spec_outing_ids sorties ∧
    res.sortiesWithClusters.length = sorties.length ∧
    res.matchedSortieIds
      = (res.sortiesWithClusters.filter
          (fun it => it.2 == res.userCluster)).map Prod.fst := by
  rw [runMatch_eq] at h
  rcases hu : predict_user_cluster prefs MP with _ | uc
  · rw [hu] at h
    cases h
  rw [hu] at h
  rcases hs : predict_sorties_clusters sorties MS dtp with _ | swc
  · rw [hs] at h
    cases h
  rw [hs] at h
  have h2 : some (⟨uc, swc,
      (swc.filter (fun it => it.2 == uc)).map Prod.fst⟩ : MatchResult) = some res := h
  cases h2
  refine ⟨?_, ?_, rfl⟩
  · rcases he : sorties.isEmpty with _ | _
    · rw [predict_sorties_clusters_eq sorties MS dtp he] at hs
      obtain ⟨h1, _, _⟩ := buildResult_props _ _ _ hs
      rw [h1, spec_outing_ids_ids]
    · have hnil : sorties = [] := List.isEmpty_iff.mp he
      subst hnil
      have hs2 : some ([] : List (Cell × Int)) = some swc := hs
      cases hs2
      rfl
  · rcases he : sorties.isEmpty with _ | _
    · rw [predict_sorties_clusters_eq sorties MS dtp he] at hs
      obtain ⟨_, h2, _⟩ := buildResult_props _ _ _ hs
      rw [h2]
      have := spec_outing_ids_length sorties
      rw [← spec_outing_ids_ids] at this
      exact this
    · have hnil : sorties = [] := List.isEmpty_iff.mp he
      subst hnil
      have hs2 : some ([] : List (Cell × Int)) = some swc := hs
      cases hs2
      rfl

/-- C1 witness: a concrete two-outing request carrying ids 7 and 8,
with a trivial model sending everything to cluster 0. -/
theorem C1_witness :
    (⟨0, [(Cell.num 7, 0), (Cell.num 8, 0)],
        [Cell.num 7, Cell.num 8]⟩ : MatchResult).sortiesWithClusters.map Prod.fst
      = spec_outing_ids [[("id", Cell.num 7)], [("id", Cell.num 8)]] ∧
    (⟨0, [(Cell.num 7, 0), (Cell.num 8, 0)],
        [Cell.num 7, Cell.num 8]⟩ : MatchResult).sortiesWithClusters.length
      = [[("id", Cell.num 7)], [("id", Cell.num 8)]].length ∧
    (⟨0, [(Cell.num 7, 0), (Cell.num 8, 0)],
        [Cell.num 7, Cell.num 8]⟩ : MatchResult).matchedSortieIds
      = ((⟨0, [(Cell.num 7, 0), (Cell.num 8, 0)],
          [Cell.num 7, Cell.num 8]⟩ : MatchResult).sortiesWithClusters.filter
          (fun it => it.2 ==
            (⟨0, [(Cell.num 7, 0), (Cell.num 8, 0)],
              [Cell.num 7, Cell.num 8]⟩ : MatchResult).userCluster)).map Prod.fst :=
  C1_match_ids [("level", Cell.str "BEGINNER")]
    [[("id", Cell.num 7)], [("id", Cell.num 8)]]
    ⟨[], fun df => List.replicate df.nrows 0⟩
    ⟨[], fun df => List.replicate df.nrows 0⟩ (fun _ => none)
    ⟨0, [(Cell.num 7, 0), (Cell.num 8, 0)], [Cell.num 7, Cell.num 8]⟩
    (by decide)

/-- C7: time-of-day parsing is total — "08:30" parses to 8.5 (17/2), a
malformed or missing value parses to NaN, and every input yields NaN or
a number (never an error) — and in the encoded table the `start_hour`
column holds exactly the parsed values with the final numeric NaN sweep
applied (NaN replaced by 0). -/
theorem C7_time_parsing (df : DF) (h : df.hasCol "start" = true) :
    parseHourCell (Cell.str "08:30") = Cell.num (17 / 2 : ℚ) ∧
    parseHourCell (Cell.str "bad") = Cell.na ∧
    parseHourCell Cell.na = Cell.na ∧
    (∀ c : Cell, parseHourCell c = Cell.na ∨ ∃ q : ℚ, parseHourCell c = Cell.num q) ∧
    ("start_hour", (((prefFilterStage df).colD "start").map parseHourCell).map fillZero)
      ∈ (prepare_preferences_dataframe df).cols := by
  refine ⟨parseHourCell_0830, by decide, rfl, parseHourCell_shape, ?_⟩
  have hso : ∀ g ∈ PREF_ONE_HOT_COLS, "start" ≠ g := by decide
  have hsb : ∀ c ∈ PREF_BOOL_COLS, "start" ≠ c := by decide
  have hsday : ∀ j ∈ PREF_DAYS, "start" ≠ "day_" ++ j := by
    intro j _ he
    rw [day_split] at he
    exact ne_of_no_underscore (by decide) "day" j he.symm
  have h1 : (prefFilterStage df).hasCol "start" = true := by
    rw [hasCol_prefFilterStage]
    exact h
  have h2 : (ohFold "UNKNOWN" PREF_ONE_HOT_COLS (prefFilterStage df)).hasCol "start"
      = true := ohFold_hasCol_of _ hso h1
  have h2c : (ohFold "UNKNOWN" PREF_ONE_HOT_COLS (prefFilterStage df)).colD "start"
      = (prefFilterStage df).colD "start" := ohFold_colD_ne _ hso h1
  have h3 : (prefBoolFold (ohFold "UNKNOWN" PREF_ONE_HOT_COLS
      (prefFilterStage df))).hasCol "start" = true := by
    rw [hasCol_prefBoolFold]
    exact h2
  have h3c : (prefBoolFold (ohFold "UNKNOWN" PREF_ONE_HOT_COLS
      (prefFilterStage df))).colD "start" = (prefFilterStage df).colD "start" := by
    rw [colD_prefBoolFold_ne hsb]
    exact h2c
  have h4 : (daysStage (prefBoolFold (ohFold "UNKNOWN" PREF_ONE_HOT_COLS
      (prefFilterStage df)))).hasCol "start" = true :=
    hasCol_daysStage_of h3 (by decide)
  have h4c : (daysStage (prefBoolFold (ohFold "UNKNOWN" PREF_ONE_HOT_COLS
      (prefFilterStage df)))).colD "start" = (prefFilterStage df).colD "start" := by
    rw [colD_daysStage_ne (by decide) hsday]
    exact h3c
  have h5 : ("start_hour",
      ((prefFilterStage df).colD "start").map parseHourCell)
      ∈ (hourStage "start" "start_hour" (daysStage (prefBoolFold
          (ohFold "UNKNOWN" PREF_ONE_HOT_COLS (prefFilterStage df))))).cols := by
    rw [← h4c]
    exact hourStage_pair_mem h4 (by decide)
  have h6 : ("start_hour", ((prefFilterStage df).colD "start").map parseHourCell)
      ∈ (hourStage "end" "end_hour" (hourStage "start" "start_hour" (daysStage
          (prefBoolFold (ohFold "UNKNOWN" PREF_ONE_HOT_COLS
            (prefFilterStage df)))))).cols :=
    mem_cols_hourStage h5 (by decide) (by decide)
  have h7 : ("start_hour", ((prefFilterStage df).colD "start").map parseHourCell)
      ∈ (prefNumFold (hourStage "end" "end_hour" (hourStage "start" "start_hour"
          (daysStage (prefBoolFold (ohFold "UNKNOWN" PREF_ONE_HOT_COLS
            (prefFilterStage df))))))).cols :=
    mem_cols_prefNumFold h6 (by decide)
  show ("start_hour",
      (((prefFilterStage df).colD "start").map parseHourCell).map fillZero)
    ∈ (finalNaSweep (prefNumFold (hourStage "end" "end_hour"
        (hourStage "start" "start_hour" (daysStage (prefBoolFold
          (ohFold "UNKNOWN" PREF_ONE_HOT_COLS (prefFilterStage df)))))))).cols
  exact mem_cols_finalNaSweep_numeric h7 (isNumericCol_map_parseHourCell _)

/-- C7 witness: a concrete frame with a `start` column containing both
"08:30" and a malformed value. -/
theorem C7_witness :
    (pdDataFrame [[("start", Cell.str "08:30")], [("start", Cell.str "bad")]]).hasCol
        "start" = true ∧
    parseHourCell (Cell.str "08:30") = Cell.num (17 / 2 : ℚ) ∧
    ("start_hour",
        (((prefFilterStage (pdDataFrame [[("start", Cell.str "08:30")],
          [("start", Cell.str "bad")]])).colD "start").map parseHourCell).map fillZero)
      ∈ (prepare_preferences_dataframe (pdDataFrame [[("start", Cell.str "08:30")],
          [("start", Cell.str "bad")]])).cols := by
  have hh : (pdDataFrame [[("start", Cell.str "08:30")],
      [("start", Cell.str "bad")]]).hasCol "start" = true := by decide
  have := C7_time_parsing (pdDataFrame [[("start", Cell.str "08:30")],
    [("start", Cell.str "bad")]]) hh
  exact ⟨hh, this.1, this.2.2.2.2⟩

/-- A field name the preferences encoder neither expands, consumes, nor
replaces: not a one-hot field and not one of the consumed columns
`availableDays`, `start`, `end`. -/
def PrefPassThrough (n : String) : Prop :=
  n ∉ PREF_ONE_HOT_COLS ∧ n ≠ "availableDays" ∧ n ≠ "start" ∧ n ≠ "end"

instance (n : String) : Decidable (PrefPassThrough n) := by
  unfold PrefPassThrough
  infer_instance

/-- A field name the outings encoder neither drops, expands, nor
replaces: not a designated text column, not a one-hot field, not `date`. -/
def SortiesPassThrough (n : String) : Prop :=
  n ∉ SORTIES_REMOVE_TEXT_COLS ∧ n ≠ "difficulte" ∧ n ≠ "type" ∧ n ≠ "date"

instance (n : String) : Decidable (SortiesPassThrough n) := by
  unfold SortiesPassThrough
  infer_instance

/-- C9 counterexample: the claim says a non-numeric unrecognized field is
dropped by the encoder; in fact the string-valued field `foo` survives
encoding with its value intact. -/
theorem C9_counterexample :
    (prepare_preferences_dataframe (pdDataFrame [[("foo", Cell.str "bar")]])).hasCol
        "foo" = true ∧
    (prepare_preferences_dataframe (pdDataFrame [[("foo", Cell.str "bar")]])).colD
        "foo" = [Cell.str "bar"] := by
  exact ⟨by decide, by decide⟩

/-- C9 amended: both encoders pass every unrecognized field through as a
column — numeric or not; nothing unrecognized is ever dropped (only the
aligner later discards columns) — and after the final NaN sweep no
numeric column of either encoded table contains a NaN. -/
theorem C9_passthrough_and_sweep (df : DF) (n : String)
    (dtp : String → Option (Nat × Nat)) :
    (PrefPassThrough n → df.hasCol n = true →
      (prepare_preferences_dataframe df).hasCol n = true) ∧
    (SortiesPassThrough n → df.hasCol n = true →
      (prepare_sorties_dataframe dtp df).hasCol n = true) ∧
    (∀ p ∈ (prepare_preferences_dataframe df).cols,
      isNumericCol p.2 = true → Cell.na ∉ p.2) ∧
    (∀ p ∈ (prepare_sorties_dataframe dtp df).cols,
      isNumericCol p.2 = true → Cell.na ∉ p.2) := by
  have hsweep : ∀ (X : DF) (p : String × List Cell), p ∈ (finalNaSweep X).cols →
      isNumericCol p.2 = true → Cell.na ∉ p.2 := by
    intro X p hp hnum
    obtain ⟨q, hq, he⟩ := List.mem_map.mp hp
    subst he
    rcases hn : isNumericCol q.2 with _ | _
    · exfalso
      rw [if_neg (by simp [hn])] at hnum
      have h2 : isNumericCol q.2 = true := hnum
      rw [h2] at hn
      cases hn
    · rw [if_pos rfl]
      exact not_na_mem_map_fillZero q.2
  refine ⟨?_, ?_, fun p hp => hsweep _ p hp, fun p hp => hsweep _ p hp⟩
  · intro hpt h
    obtain ⟨h1, h2, h3, h4⟩ := hpt
    have hne : ∀ g ∈ PREF_ONE_HOT_COLS, n ≠ g := fun g hg he => h1 (he ▸ hg)
    have s1 : (prefFilterStage df).hasCol n = true := by
      rw [hasCol_prefFilterStage]
      exact h
    have s2 : (ohFold "UNKNOWN" PREF_ONE_HOT_COLS (prefFilterStage df)).hasCol n
        = true := ohFold_hasCol_of PREF_ONE_HOT_COLS hne s1
    have s3 : (prefBoolFold (ohFold "UNKNOWN" PREF_ONE_HOT_COLS
        (prefFilterStage df))).hasCol n = true := by
      rw [hasCol_prefBoolFold]
      exact s2
    have s4 := hasCol_daysStage_of s3 h2
    have s5 := @hasCol_hourStage_of "start" "start_hour" _ n s4 h3
    have s6 := @hasCol_hourStage_of "end" "end_hour" _ n s5 h4
    show (finalNaSweep (prefNumFold (hourStage "end" "end_hour"
        (hourStage "start" "start_hour" (daysStage (prefBoolFold
          (ohFold "UNKNOWN" PREF_ONE_HOT_COLS (prefFilterStage df)))))))).hasCol n
      = true
    rw [hasCol_finalNaSweep, hasCol_prefNumFold]
    exact s6
  · intro hpt h
    obtain ⟨h1, h2, h3, h4⟩ := hpt
    have s1 : (sortiesTextDrop df).hasCol n = true :=
      hasCol_sortiesTextDrop_of h (fun c hc he => h1 (he ▸ hc))
    have s2 := @hasCol_oneHotStage_of "INCONNUE" "difficulte" _ n s1 h2
    have s3 := @hasCol_oneHotStage_of "UNKNOWN" "type" _ n s2 h3
    have s4 : (sortiesBoolFold (oneHotStage "UNKNOWN" "type"
        (oneHotStage "INCONNUE" "difficulte" (sortiesTextDrop df)))).hasCol n
        = true := by
      rw [hasCol_sortiesBoolFold]
      exact s3
    have s5 : (sortiesNumFold (sortiesBoolFold (oneHotStage "UNKNOWN" "type"
        (oneHotStage "INCONNUE" "difficulte" (sortiesTextDrop df))))).hasCol n
        = true := by
      rw [hasCol_sortiesNumFold]
      exact s4
    have s6 := @hasCol_dateStage_of dtp _ n s5 h4
    show (finalNaSweep (dateStage dtp (sortiesNumFold (sortiesBoolFold
        (oneHotStage "UNKNOWN" "type" (oneHotStage "INCONNUE" "difficulte"
          (sortiesTextDrop df))))))).hasCol n = true
    rw [hasCol_finalNaSweep]
    exact s6

/-- C9 witness: the unrecognized field `foo` passes through both
encoders on a concrete one-row frame. -/
theorem C9_witness :
    PrefPassThrough "foo" ∧
    (prepare_preferences_dataframe (pdDataFrame [[("foo", Cell.str "bar")]])).hasCol
        "foo" = true ∧
    (prepare_sorties_dataframe (fun _ => none)
        (pdDataFrame [[("foo", Cell.str "bar")]])).hasCol "foo" = true := by
  have hp : PrefPassThrough "foo" := by decide
  have hs : SortiesPassThrough "foo" := by decide
  have hh : (pdDataFrame [[("foo", Cell.str "bar")]]).hasCol "foo" = true := by decide
  have := C9_passthrough_and_sweep (pdDataFrame [[("foo", Cell.str "bar")]]) "foo"
    (fun _ => none)
  exact ⟨hp, this.1 hp hh, this.2.1 hs hh⟩

/-- C6 counterexample: the claim says the seven `day_*` columns are
always emitted, all zero when `availableDays` is absent; in fact a frame
without `availableDays` gets no `day_MONDAY` column at all. -/
theorem C6_counterexample :
    (pdDataFrame [[("level", Cell.str "BEGINNER")]]).hasCol "availableDays" = false ∧
    "MONDAY" ∈ PREF_DAYS ∧
    (prepare_preferences_dataframe
        (pdDataFrame [[("level", Cell.str "BEGINNER")]])).hasCol ("day_" ++ "MONDAY")
      = false := by
  exact ⟨by decide, by decide, by decide⟩

/-- C6 amended: the seven `day_*` columns are emitted only when the
`availableDays` field is present; when present, each `day_<j>` column
holds, per row, 1 exactly when the day token `j` is in the row value
split on `|` (a missing value yields the empty token set, hence all-zero
day cells for that row); `"MONDAY|FRIDAY"` sets exactly `day_MONDAY` and
`day_FRIDAY`; when the field is absent, the encoder creates no `day_*`
column. -/
theorem C6_day_encoding (df : DF) :
    (df.hasCol "availableDays" = true →
      ∀ j ∈ PREF_DAYS,
        ("day_" ++ j,
          ((prefFilterStage df).colD "availableDays").map
            (fun c => Cell.num (if (encodeDays c).contains j then 1 else 0)))
          ∈ (prepare_preferences_dataframe df).cols) ∧
    (df.hasCol "availableDays" = false →
      ∀ j ∈ PREF_DAYS, df.hasCol ("day_" ++ j) = false →
        (prepare_preferences_dataframe df).hasCol ("day_" ++ j) = false) ∧
    (∀ j ∈ PREF_DAYS,
      (encodeDays (Cell.str "MONDAY|FRIDAY")).contains j
        = (j == "MONDAY" || j == "FRIDAY")) ∧
    encodeDays Cell.na = [] := by
  have hav_ne_onehot : ∀ g ∈ PREF_ONE_HOT_COLS, "availableDays" ≠ g := by decide
  have hav_ne_bool : ∀ c ∈ PREF_BOOL_COLS, "availableDays" ≠ c := by decide
  have hday_safe : ∀ (j : String), j ∈ PREF_DAYS →
      ("day_" ++ j ≠ "start") ∧ ("day_" ++ j ≠ "end") ∧
      ("day_" ++ j ≠ "start_hour") ∧ ("day_" ++ j ≠ "end_hour") ∧
      (∀ c ∈ ["latitude", "longitude", "averageSpeed"], "day_" ++ j ≠ c) := by
    intro j _
    rw [day_split]
    refine ⟨ne_of_no_underscore (by decide) "day" j,
      ne_of_no_underscore (by decide) "day" j,
      by rw [start_hour_split]; exact ne_of_split (by decide) (by decide) (by decide),
      by rw [end_hour_split]; exact ne_of_split (by decide) (by decide) (by decide),
      fun c hc => ne_of_no_underscore (by revert hc; revert c; decide) "day" j⟩
  refine ⟨?_, ?_, by decide, rfl⟩
  · intro h j hj
    have h1 : (prefFilterStage df).hasCol "availableDays" = true := by
      rw [hasCol_prefFilterStage]
      exact h
    have h2 := @ohFold_hasCol_of "UNKNOWN" "availableDays" PREF_ONE_HOT_COLS _
      hav_ne_onehot h1
    have h2c := @ohFold_colD_ne "UNKNOWN" "availableDays" PREF_ONE_HOT_COLS _
      hav_ne_onehot h1
    have h3 : (prefBoolFold (ohFold "UNKNOWN" PREF_ONE_HOT_COLS
        (prefFilterStage df))).hasCol "availableDays" = true := by
      rw [hasCol_prefBoolFold]
      exact h2
    have h3c : (prefBoolFold (ohFold "UNKNOWN" PREF_ONE_HOT_COLS
        (prefFilterStage df))).colD "availableDays"
        = (prefFilterStage df).colD "availableDays" := by
      rw [colD_prefBoolFold_ne hav_ne_bool]
      exact h2c
    have h4 := daysStage_day_mem h3 hj
    rw [h3c, List.map_map] at h4
    obtain ⟨d1, d2, d3, d4, d5⟩ := hday_safe j hj
    have h5 := mem_cols_hourStage (mem_cols_hourStage h4 d1 d3) d2 d4
    have h6 := mem_cols_prefNumFold h5 d5
    have hna : Cell.na ∉ ((prefFilterStage df).colD "availableDays").map
        ((fun ds => Cell.num (if ds.contains j then 1 else 0)) ∘ encodeDays) := by
      intro hmem
      obtain ⟨c, _, hc⟩ := List.mem_map.mp hmem
      cases hc
    have h7 := mem_cols_finalNaSweep h6 hna
    show ("day_" ++ j, ((prefFilterStage df).colD "availableDays").map
        (fun c => Cell.num (if (encodeDays c).contains j then 1 else 0)))
      ∈ (finalNaSweep (prefNumFold (hourStage "end" "end_hour"
          (hourStage "start" "start_hour" (daysStage (prefBoolFold
            (ohFold "UNKNOWN" PREF_ONE_HOT_COLS (prefFilterStage df)))))))).cols
    exact h7
  · intro h j hj habs
    have hdayj : ∀ g ∈ PREF_ONE_HOT_COLS, ∀ s, "day_" ++ j ≠ g ++ "_" ++ s := by
      intro g hg s he
      rw [day_split] at he
      have := (split_unique he (by decide) (pref_onehot_no_underscore g hg)).1
      exact (by decide : ∀ g2 ∈ PREF_ONE_HOT_COLS, g2 ≠ "day") g hg this.symm
    obtain ⟨d1, d2, d3, d4, d5⟩ := hday_safe j hj
    have s1 : (prefFilterStage df).hasCol ("day_" ++ j) = false := by
      rw [hasCol_prefFilterStage]
      exact habs
    have s2 := @ohFold_not_hasCol "UNKNOWN" ("day_" ++ j) PREF_ONE_HOT_COLS _ hdayj s1
    have s3 : (prefBoolFold (ohFold "UNKNOWN" PREF_ONE_HOT_COLS
        (prefFilterStage df))).hasCol ("day_" ++ j) = false := by
      rw [hasCol_prefBoolFold]
      exact s2
    have hav1 : (prefFilterStage df).hasCol "availableDays" = false := by
      rw [hasCol_prefFilterStage]
      exact h
    have hav2 := @ohFold_not_hasCol "UNKNOWN" "availableDays" PREF_ONE_HOT_COLS _
      (fun g hg s he => by
        have hm : '_' ∈ ("availableDays" : String).data := by
          rw [he]
          exact underscore_mem g s
        exact absurd hm (by decide)) hav1
    have hav3 : (prefBoolFold (ohFold "UNKNOWN" PREF_ONE_HOT_COLS
        (prefFilterStage df))).hasCol "availableDays" = false := by
      rw [hasCol_prefBoolFold]
      exact hav2
    have s4 : (daysStage (prefBoolFold (ohFold "UNKNOWN" PREF_ONE_HOT_COLS
        (prefFilterStage df)))).hasCol ("day_" ++ j) = false := by
      rw [daysStage_eq_neg hav3]
      exact s3
    have s5 := @not_hasCol_hourStage "start" "start_hour" _ ("day_" ++ j) s4 d3
    have s6 := @not_hasCol_hourStage "end" "end_hour" _ ("day_" ++ j) s5 d4
    show (finalNaSweep (prefNumFold (hourStage "end" "end_hour"
        (hourStage "start" "start_hour" (daysStage (prefBoolFold
          (ohFold "UNKNOWN" PREF_ONE_HOT_COLS (prefFilterStage df)))))))).hasCol
        ("day_" ++ j) = false
    rw [hasCol_finalNaSweep, hasCol_prefNumFold]
    exact s6

/-- C6 witness: a concrete frame whose `availableDays` value is
`"MONDAY|FRIDAY"` receives the `day_MONDAY` indicator column. -/
theorem C6_witness :
    (pdDataFrame [[("availableDays", Cell.str "MONDAY|FRIDAY")]]).hasCol
        "availableDays" = true ∧
    ("day_" ++ "MONDAY",
        ((prefFilterStage (pdDataFrame
          [[("availableDays", Cell.str "MONDAY|FRIDAY")]])).colD "availableDays").map
          (fun c => Cell.num (if (encodeDays c).contains "MONDAY" then 1 else 0)))
      ∈ (prepare_preferences_dataframe
          (pdDataFrame [[("availableDays", Cell.str "MONDAY|FRIDAY")]])).cols := by
  have hh : (pdDataFrame [[("availableDays", Cell.str "MONDAY|FRIDAY")]]).hasCol
      "availableDays" = true := by decide
  exact ⟨hh,
    (C6_day_encoding (pdDataFrame [[("availableDays", Cell.str "MONDAY|FRIDAY")]])).1
      hh "MONDAY" (by decide)⟩

theorem oneHotStage_block_mem {fb col : String} {df : DF} (h : df.hasCol col = true) :
    ∀ pr ∈ getDummies col ((df.colD col).map (fillCellStr fb)),
      pr ∈ (oneHotStage fb col df).cols := by
  intro pr hpr
  unfold oneHotStage
  rw [if_pos h]
  exact mem_cols_appendCols_right _ hpr

theorem ohFold_block_mem {fb : String} {L : List String} (hnd : L.Nodup)
    (hU : ∀ g ∈ L, '_' ∉ g.data) {df : DF} {f : String} (hf : f ∈ L)
    (h : df.hasCol f = true) :
    ∀ pr ∈ getDummies f ((df.colD f).map (fillCellStr fb)),
      pr ∈ (ohFold fb L df).cols := by
  intro pr hpr
  obtain ⟨l₁, l₂, hsplit⟩ := List.append_of_mem hf
  subst hsplit
  have hd := List.nodup_append.mp hnd
  have hf1 : f ∉ l₁ := fun hm => hd.2.2 hm (List.mem_cons_self f l₂)
  have hstep : ohFold fb (l₁ ++ f :: l₂) df
      = ohFold fb l₂ (oneHotStage fb f (ohFold fb l₁ df)) := by
    unfold ohFold
    rw [List.foldl_append]
    rfl
  rw [hstep]
  have hne1 : ∀ g ∈ l₁, f ≠ g := fun g hg he => hf1 (he ▸ hg)
  have hpre1 : (ohFold fb l₁ df).hasCol f = true := ohFold_hasCol_of l₁ hne1 h
  have hpre2 : (ohFold fb l₁ df).colD f = df.colD f := ohFold_colD_ne l₁ hne1 h
  have hmem2 : pr ∈ (oneHotStage fb f (ohFold fb l₁ df)).cols := by
    apply oneHotStage_block_mem hpre1
    rw [hpre2]
    exact hpr
  apply ohFold_mem l₂ ?_ hmem2
  intro g hg
  obtain ⟨c, _, hshape⟩ := getDummies_mem_shape hpr
  rw [hshape]
  show f ++ "_" ++ c ≠ g
  exact ne_of_no_underscore
    (hU g (List.mem_append_right _ (List.mem_cons_of_mem f hg))) f c

/-- C5 counterexample: the claim says the encoded table always contains
the fallback bucket column of a present categorical field; in fact a
frame whose `level` values are all present gets no `level_UNKNOWN`
column (get_dummies only creates columns for values that occur). -/
theorem C5_counterexample :
    "level" ∈ PREF_ONE_HOT_COLS ∧
    (pdDataFrame [[("level", Cell.str "BEGINNER")]]).hasCol "level" = true ∧
    (prepare_preferences_dataframe
        (pdDataFrame [[("level", Cell.str "BEGINNER")]])).hasCol
        ("level" ++ "_" ++ "UNKNOWN") = false := by
  exact ⟨by decide, by decide, by decide⟩

/-- C5 amended: for every categorical field present in the input, the
encoded table contains the one-hot block of that field (one 0/1 column
per distinct filled value), the fallback bucket column appears whenever
some row value is missing (rather than always), and among the block
columns exactly one is 1 in every row; this holds for the preference
one-hot fields (UNKNOWN fallback) and for the outing fields `difficulte`
(INCONNUE fallback) and `type` (UNKNOWN fallback). -/
theorem C5_one_hot_buckets :
    (∀ (df : DF) (f : String), f ∈ PREF_ONE_HOT_COLS →
      (prefFilterStage df).hasCol f = true →
      (∀ pr ∈ getDummies f (((prefFilterStage df).colD f).map (fillCellStr "UNKNOWN")),
        pr ∈ (prepare_preferences_dataframe df).cols ∧
        ∀ i, i < ((prefFilterStage df).colD f).length →
          (pr.2[i]? = some (Cell.num 1) ∨ pr.2[i]? = some (Cell.num 0))) ∧
      (Cell.na ∈ (prefFilterStage df).colD f →
        (prepare_preferences_dataframe df).hasCol (f ++ "_" ++ "UNKNOWN") = true) ∧
      (∀ i, i < ((prefFilterStage df).colD f).length →
        ((getDummies f
            (((prefFilterStage df).colD f).map (fillCellStr "UNKNOWN"))).filter
          (fun pr => decide (pr.2[i]? = some (Cell.num 1)))).length = 1)) ∧
    (∀ (dtp : String → Option (Nat × Nat)) (df : DF) (f fb : String),
      ((f, fb) = ("difficulte", "INCONNUE") ∨ (f, fb) = ("type", "UNKNOWN")) →
      (sortiesTextDrop df).hasCol f = true →
      (∀ pr ∈ getDummies f (((sortiesTextDrop df).colD f).map (fillCellStr fb)),
        pr ∈ (prepare_sorties_dataframe dtp df).cols ∧
        ∀ i, i < ((sortiesTextDrop df).colD f).length →
          (pr.2[i]? = some (Cell.num 1) ∨ pr.2[i]? = some (Cell.num 0))) ∧
      (Cell.na ∈ (sortiesTextDrop df).colD f →
        (prepare_sorties_dataframe dtp df).hasCol (f ++ "_" ++ fb) = true) ∧
      (∀ i, i < ((sortiesTextDrop df).colD f).length →
        ((getDummies f (((sortiesTextDrop df).colD f).map (fillCellStr fb))).filter
          (fun pr => decide (pr.2[i]? = some (Cell.num 1)))).length = 1)) := by
  constructor
  · intro df f hfL hhas
    have hlen : (((prefFilterStage df).colD f).map (fillCellStr "UNKNOWN")).length
        = ((prefFilterStage df).colD f).length := List.length_map _ _
    have hout : ∀ pr ∈ getDummies f
        (((prefFilterStage df).colD f).map (fillCellStr "UNKNOWN")),
        pr ∈ (prepare_preferences_dataframe df).cols := by
      intro pr hpr
      have hblock := @ohFold_block_mem "UNKNOWN" PREF_ONE_HOT_COLS (by decide)
        pref_onehot_no_underscore _ f hfL hhas pr hpr
      obtain ⟨c, _, hshape⟩ := getDummies_mem_shape hpr
      subst hshape
      obtain ⟨A1, A2, A3, A4, A5, A6, A7, A8, A9⟩ := pref_dummy_safe hfL c
      have hb := mem_cols_prefBoolFold hblock A2
      have hdd := mem_cols_daysStage hb A3 A4
      have hh1 := mem_cols_hourStage (mem_cols_hourStage hdd A5 A7) A6 A8
      have hh2 := mem_cols_prefNumFold hh1 A9
      have hna : Cell.na ∉ ((((prefFilterStage df).colD f).map
          (fillCellStr "UNKNOWN")).map
            (fun v => Cell.num (if v = c then 1 else 0))) := by
        intro hm
        obtain ⟨x, _, hx⟩ := List.mem_map.mp hm
        cases hx
      have hfin := mem_cols_finalNaSweep hh2 hna
      show _ ∈ (finalNaSweep (prefNumFold (hourStage "end" "end_hour"
          (hourStage "start" "start_hour" (daysStage (prefBoolFold
            (ohFold "UNKNOWN" PREF_ONE_HOT_COLS (prefFilterStage df)))))))).cols
      exact hfin
    refine ⟨fun pr hpr => ⟨hout pr hpr, fun i hi =>
        getDummies_entry_01 hpr (by rw [hlen]; exact hi)⟩, ?_, fun i hi =>
        getDummies_exactly_one f _ (by rw [hlen]; exact hi)⟩
    intro hna
    have hkey := @getDummies_fallback_mem f "UNKNOWN" _ hna
    obtain ⟨pr, hpr, hfst⟩ := List.mem_map.mp hkey
    apply hasCol_iff_mem_fst.mpr
    exact List.mem_map.mpr ⟨pr, hout pr hpr, hfst⟩
  · intro dtp df f fb hcase hhas
    have hlen : (((sortiesTextDrop df).colD f).map (fillCellStr fb)).length
        = ((sortiesTextDrop df).colD f).length := List.length_map _ _
    have hf2 : f = "difficulte" ∨ f = "type" := by
      rcases hcase with h | h <;> [left; right] <;>
        exact congrArg Prod.fst h
    have hout : ∀ pr ∈ getDummies f (((sortiesTextDrop df).colD f).map (fillCellStr fb)),
        pr ∈ (prepare_sorties_dataframe dtp df).cols := by
      intro pr hpr
      have hblock : pr ∈ (oneHotStage "UNKNOWN" "type"
          (oneHotStage "INCONNUE" "difficulte" (sortiesTextDrop df))).cols := by
        rcases hcase with hc | hc
        · have hff : f = "difficulte" := congrArg Prod.fst hc
          have hfb : fb = "INCONNUE" := congrArg Prod.snd hc
          subst hff
          subst hfb
          have h1 := @oneHotStage_block_mem "INCONNUE" "difficulte" _ hhas pr hpr
          obtain ⟨c, _, hshape⟩ := getDummies_mem_shape hpr
          apply mem_cols_oneHotStage h1
          rw [hshape]
          exact (sorties_dummy_safe (Or.inl rfl) c).1
        · have hff : f = "type" := congrArg Prod.fst hc
          have hfb : fb = "UNKNOWN" := congrArg Prod.snd hc
          subst hff
          subst hfb
          have hhas1 : (oneHotStage "INCONNUE" "difficulte"
              (sortiesTextDrop df)).hasCol "type" = true :=
            hasCol_oneHotStage_of hhas (by decide)
          have hcol1 : (oneHotStage "INCONNUE" "difficulte"
              (sortiesTextDrop df)).colD "type" = (sortiesTextDrop df).colD "type" :=
            colD_oneHotStage_ne hhas (by decide)
          apply oneHotStage_block_mem hhas1
          rw [hcol1]
          exact hpr
      obtain ⟨c, _, hshape⟩ := getDummies_mem_shape hpr
      subst hshape
      obtain ⟨B1, B2, B3, B4, B5, B6⟩ := sorties_dummy_safe hf2 c
      have hb := mem_cols_sortiesBoolFold hblock B2
      have hn2 := mem_cols_sortiesNumFold hb B3
      have hdt := @mem_cols_dateStage dtp _ _ _ hn2 B4 B5 B6
      have hna : Cell.na ∉ ((((sortiesTextDrop df).colD f).map (fillCellStr fb)).map
          (fun v => Cell.num (if v = c then 1 else 0))) := by
        intro hm
        obtain ⟨x, _, hx⟩ := List.mem_map.mp hm
        cases hx
      have hfin := mem_cols_finalNaSweep hdt hna
      show _ ∈ (finalNaSweep (dateStage dtp (sortiesNumFold (sortiesBoolFold
          (oneHotStage "UNKNOWN" "type" (oneHotStage "INCONNUE" "difficulte"
            (sortiesTextDrop df))))))).cols
      exact hfin
    refine ⟨fun pr hpr => ⟨hout pr hpr, fun i hi =>
        getDummies_entry_01 hpr (by rw [hlen]; exact hi)⟩, ?_, fun i hi =>
        getDummies_exactly_one f _ (by rw [hlen]; exact hi)⟩
    intro hna
    have hkey := @getDummies_fallback_mem f fb _ hna
    obtain ⟨pr, hpr, hfst⟩ := List.mem_map.mp hkey
    apply hasCol_iff_mem_fst.mpr
    exact List.mem_map.mpr ⟨pr, hout pr hpr, hfst⟩

/-- C5 witness: on a concrete two-row frame whose second `level` value
is missing, the `level_UNKNOWN` bucket appears and each block column is
0/1-valued with exactly one 1 per row. -/
theorem C5_witness :
    (prefFilterStage (pdDataFrame [[("level", Cell.str "BEGINNER")], []])).hasCol
        "level" = true ∧
    Cell.na ∈ (prefFilterStage (pdDataFrame
        [[("level", Cell.str "BEGINNER")], []])).colD "level" ∧
    (prepare_preferences_dataframe (pdDataFrame
        [[("level", Cell.str "BEGINNER")], []])).hasCol
        ("level" ++ "_" ++ "UNKNOWN") = true := by
  have h1 : (prefFilterStage (pdDataFrame
      [[("level", Cell.str "BEGINNER")], []])).hasCol "level" = true := by decide
  have h2 : Cell.na ∈ (prefFilterStage (pdDataFrame
      [[("level", Cell.str "BEGINNER")], []])).colD "level" := by decide
  exact ⟨h1, h2,
    ((C5_one_hot_buckets.1 (pdDataFrame [[("level", Cell.str "BEGINNER")], []])
      "level" (by decide) h1).2.1 h2)⟩


theorem main_gateway_obj_case (MP : PrefModels) (MS : SortiesModels)
    (dtp : String → Option (Nat × Nat))
    (parseJson : String → Except String JValue) {input : String}
    {fields : List (String × JValue)} (hne : input ≠ "")
    (hp : parseJson input = Except.ok (JValue.obj fields)) :
    main_gateway MP MS dtp parseJson input
      = match keyCheck (JValue.obj fields) "userPreferences" with
        | none => ⟨1, none, some (msgUnhandledPrefix ++ "TypeError")⟩
        | some false => ⟨1, none, some msgMissingPrefs⟩
        | some true =>
          match keyCheck (JValue.obj fields) "sorties" with
          | none => ⟨1, none, some (msgUnhandledPrefix ++ "TypeError")⟩
          | some false => ⟨1, none, some msgMissingSorties⟩
          | some true =>
            match getKey (JValue.obj fields) "userPreferences",
                getKey (JValue.obj fields) "sorties" with
            | some jp, some js =>
              match jToRecord jp, jToRecords js with
              | some prefs, some sorties =>
                match runMatch prefs sorties MP MS dtp with
                | some res => ⟨0, some res, none⟩
                | none => ⟨1, none, some (msgUnhandledPrefix ++ "prediction")⟩
              | _, _ => ⟨1, none, some (msgUnhandledPrefix ++ "shape")⟩
            | _, _ => ⟨1, none, some (msgUnhandledPrefix ++ "TypeError")⟩ := by
  unfold main_gateway
  rw [if_neg hne, hp]

/-- C8: the gateway reports empty stdin, malformed JSON, missing
`userPreferences`, and missing `sorties` as four separate errors with
pairwise-distinct diagnostics on standard error, checks
`userPreferences` before `sorties` (when both are missing the
`userPreferences` message is the one reported, as the third conjunct
imposes no condition on `sorties`), and in every such case exits with a
nonzero status writing nothing to standard output. -/
theorem C8_gateway_input_errors (MP : PrefModels) (MS : SortiesModels)
    (dtp : String → Option (Nat × Nat))
    (parseJson : String → Except String JValue) :
    (main_gateway MP MS dtp parseJson "" = ⟨1, none, some msgEmptyInput⟩) ∧
    (∀ input e, input ≠ "" → parseJson input = .error e →
      main_gateway MP MS dtp parseJson input
        = ⟨1, none, some (msgInvalidJsonPrefix ++ e)⟩) ∧
    (∀ input fields, input ≠ "" → parseJson input = .ok (.obj fields) →
      fields.any (fun kv => kv.1 == "userPreferences") = false →
      main_gateway MP MS dtp parseJson input = ⟨1, none, some msgMissingPrefs⟩) ∧
    (∀ input fields, input ≠ "" → parseJson input = .ok (.obj fields) →
      fields.any (fun kv => kv.1 == "userPreferences") = true →
      fields.any (fun kv => kv.1 == "sorties") = false →
      main_gateway MP MS dtp parseJson input = ⟨1, none, some msgMissingSorties⟩) ∧
    (∀ e, msgEmptyInput ≠ msgInvalidJsonPrefix ++ e) ∧
    (∀ e, msgMissingPrefs ≠ msgInvalidJsonPrefix ++ e) ∧
    (∀ e, msgMissingSorties ≠ msgInvalidJsonPrefix ++ e) ∧
    msgEmptyInput ≠ msgMissingPrefs ∧
    msgEmptyInput ≠ msgMissingSorties ∧
    msgMissingPrefs ≠ msgMissingSorties := by
  refine ⟨?_, ?_, ?_, ?_,
    fun e => (str_append_ne_right (by decide) e).symm,
    fun e => (str_append_ne_right (by decide) e).symm,
    fun e => (str_append_ne_right (by decide) e).symm,
    by decide, by decide, by decide⟩
  · unfold main_gateway
    rw [if_pos rfl]
  · intro input e hne hp
    unfold main_gateway
    rw [if_neg hne, hp]
  · intro input fields hne hp h1
    rw [main_gateway_obj_case MP MS dtp parseJson hne hp]
    rw [show keyCheck (JValue.obj fields) "userPreferences"
        = some (fields.any (fun kv => kv.1 == "userPreferences")) from rfl, h1]
  · intro input fields hne hp h1 h2
    rw [main_gateway_obj_case MP MS dtp parseJson hne hp]
    rw [show keyCheck (JValue.obj fields) "userPreferences"
        = some (fields.any (fun kv => kv.1 == "userPreferences")) from rfl, h1]
    rw [show keyCheck (JValue.obj fields) "sorties"
        = some (fields.any (fun kv => kv.1 == "sorties")) from rfl, h2]

/-- C8 witness: a concrete parser exercising all four error inputs. -/
theorem C8_witness :
    (main_gateway ⟨[], fun df => List.replicate df.nrows 0⟩
        ⟨[], fun df => List.replicate df.nrows 0⟩ (fun _ => none)
        (fun s =>
          if s = "x" then Except.error "boom"
          else if s = "y" then Except.ok (JValue.obj [])
          else Except.ok (JValue.obj [("userPreferences", JValue.null)])) ""
      = ⟨1, none, some msgEmptyInput⟩) ∧
    (main_gateway ⟨[], fun df => List.replicate df.nrows 0⟩
        ⟨[], fun df => List.replicate df.nrows 0⟩ (fun _ => none)
        (fun s =>
          if s = "x" then Except.error "boom"
          else if s = "y" then Except.ok (JValue.obj [])
          else Except.ok (JValue.obj [("userPreferences", JValue.null)])) "x"
      = ⟨1, none, some (msgInvalidJsonPrefix ++ "boom")⟩) ∧
    (main_gateway ⟨[], fun df => List.replicate df.nrows 0⟩
        ⟨[], fun df => List.replicate df.nrows 0⟩ (fun _ => none)
        (fun s =>
          if s = "x" then Except.error "boom"
          else if s = "y" then Except.ok (JValue.obj [])
          else Except.ok (JValue.obj [("userPreferences", JValue.null)])) "y"
      = ⟨1, none, some msgMissingPrefs⟩) ∧
    (main_gateway ⟨[], fun df => List.replicate df.nrows 0⟩
        ⟨[], fun df => List.replicate df.nrows 0⟩ (fun _ => none)
        (fun s =>
          if s = "x" then Except.error "boom"
          else if s = "y" then Except.ok (JValue.obj [])
          else Except.ok (JValue.obj [("userPreferences", JValue.null)])) "z"
      = ⟨1, none, some msgMissingSorties⟩) := by
  have hC := C8_gateway_input_errors ⟨[], fun df => List.replicate df.nrows 0⟩
    ⟨[], fun df => List.replicate df.nrows 0⟩ (fun _ => none)
    (fun s =>
      if s = "x" then Except.error "boom"
      else if s = "y" then Except.ok (JValue.obj [])
      else Except.ok (JValue.obj [("userPreferences", JValue.null)]))
  refine ⟨hC.1, ?_, ?_, ?_⟩
  · exact hC.2.1 "x" "boom" (by decide) rfl
  · exact hC.2.2.1 "y" [] (by decide) rfl rfl
  · exact hC.2.2.2.1 "z" [("userPreferences", JValue.null)] (by decide) rfl rfl rfl
